import Mathlib

/-!
Shallow embedding of the trading-monitor signal/threshold engine
(src/strategy.py, src/app.py, src/ib_manager.py).

Modelling conventions:
* Python floats are modelled as rationals; the one place `float('inf')`
  occurs (the open BB trigger bound) is modelled by `PyFloat.inf`.
* `math`/numpy square roots (`** 0.5`, pandas `rolling().std()`) are
  abstracted as an explicit function parameter `sf : ℚ → ℚ`.
* Python dicts keyed by watch/trade id are association lists; string enums
  of the source ("LONG", "BUY", "MA", ...) stay strings.
* `round(x, n)` is round-half-to-even at `n` decimal digits.
* Wall-clock reads (`time.time()`, `datetime.now().isoformat()`,
  `strftime("%H:%M")`) are supplied by the caller as parameters.
-/

namespace TradingMonitor

/-- Round half to even (Python `round` tie behaviour) to an integer.
(`Rat.floor` is used rather than `Int.floor` so that proofs can evaluate
it by kernel reduction; they agree on ℚ.) -/
def roundHalfEven (q : ℚ) : ℤ :=
  if q - Rat.floor q = 1/2 then
    (if Rat.floor q % 2 = 0 then Rat.floor q else Rat.floor q + 1)
  else Rat.floor (q + 1/2)

/-- Python `round(x, nd)` on the rational float model. -/
def pyRound (nd : ℕ) (x : ℚ) : ℚ :=
  let m : ℚ := (10 : ℚ) ^ nd
  ((roundHalfEven (x * m) : ℚ)) / m

/-- Python `int(x)` (truncation toward zero). -/
def pyInt (x : ℚ) : ℤ :=
  if 0 ≤ x then Rat.floor x else -(Rat.floor (-x))

/-- Python float abstraction: a rational or `float('inf')` (which appears
as the upper trigger bound of the BB SHORT zone). -/
inductive PyFloat where
  | fin (q : ℚ)
  | inf
deriving DecidableEq, Repr

/-- `a <= b` on the float abstraction. -/
def PyFloat.ple : PyFloat → PyFloat → Bool
  | _, .inf => true
  | .inf, .fin _ => false
  | .fin a, .fin b => decide (a ≤ b)

/-- `round(x, 4)` lifted to the float abstraction (`round(inf) = inf`). -/
def PyFloat.round4 : PyFloat → PyFloat
  | .fin q => .fin (pyRound 4 q)
  | .inf => .inf

/-- Python truthiness of an optional float (None and 0.0 are falsy). -/
def qTruthy : Option ℚ → Bool
  | none => false
  | some v => decide (v ≠ 0)

/-- Python truthiness of an optional string (None and "" are falsy). -/
def strTruthy : Option String → Bool
  | none => false
  | some s => decide (s ≠ "")

/-- Python truthiness of an optional list (None and [] are falsy). -/
def listTruthy {β : Type} : Option (List β) → Bool
  | none => false
  | some l => !l.isEmpty

/-- Python dict assignment `d[k] = v` on an association list. -/
def dictSet {β : Type} (d : List (String × β)) (k : String) (v : β) :
    List (String × β) :=
  if d.any (fun p => p.1 == k) then
    d.map (fun p => if p.1 == k then (k, v) else p)
  else d ++ [(k, v)]

/-- Python `d.pop(k, None)` / guarded `del d[k]`. -/
def dictPop {β : Type} (d : List (String × β)) (k : String) :
    List (String × β) :=
  d.filter (fun p => p.1 != k)

/-- Python `d.get(k)`. -/
def dictGet {β : Type} (d : List (String × β)) (k : String) : Option β :=
  d.lookup k

/-- Python `xs[-j]` on a list of optionals, defaulting to `none` when the
index is out of range (the source only evaluates it behind length guards). -/
def negIdx {β : Type} (xs : List (Option β)) (j : ℕ) : Option β :=
  xs.getD (xs.length - j) none

/-- Python `l[-k:]` (note that `l[-0:]` is the whole list). -/
def tailSlice (l : List ℚ) (k : ℕ) : List ℚ :=
  if k = 0 then l else l.drop (l.length - k)

/-- src/strategy.py `WatchItem` (the `trading_config` dict is opaque data
never read by the modelled operations and is omitted). -/
structure WatchItem where
  id : String
  symbol : String
  sec_type : String := "STK"
  exchange : String := "SMART"
  currency : String := "USD"
  ma_period : ℕ := 21
  n_points : ℚ := 5
  enabled : Bool := true
  contract_month : String := ""
  direction : String := "LONG"
  confirm_ma_enabled : Bool := false
  confirm_ma_period : ℕ := 55
  strategy_type : String := "MA"
  bb_std_dev : ℚ := 2
  timeframe : String := "D"
deriving DecidableEq, Repr

/-- src/strategy.py `Signal`. `signal_type` is optional because the local
variable it is built from can be `None` (flat-MA edge case). -/
structure Signal where
  timestamp : String
  watch_id : String
  symbol : String
  signal_type : Option String
  price : ℚ
  ma_value : ℚ
  ma_period : ℕ
  n_points : ℚ
  distance : ℚ
  acknowledged : Bool := false
deriving DecidableEq, Repr

/-- Numeric content of the formatted zone display strings of the source
(`"lo ~ hi"`, `"≤ v"`, `"≥ v"`), carrying the 2-decimal display rounding. -/
inductive ZoneDesc where
  | range (lo hi : ℚ)
  | below (v : ℚ)
  | above (v : ℚ)
deriving DecidableEq, Repr

/-- The per-watch frontend snapshot dict (`StrategyEngine.latest_data`
values). Keys written only by `check_price` are `Option` fields that
`calculate_thresholds` leaves at `none`; a Python `None` value is also
modelled as `none`. -/
structure LatestData where
  symbol : String
  current_price : ℚ
  ma_value : ℚ
  prev_ma : ℚ
  ma_period : ℕ
  ma_direction : String
  n_points : ℚ
  distance_from_ma : ℚ
  buy_zone : Option ZoneDesc
  sell_zone : Option ZoneDesc
  last_updated : String
  confirm_ma_enabled : Option Bool := none
  confirm_ma_period : Option ℕ := none
  confirm_ma_value : Option ℚ := none
  confirm_ma_direction : Option String := none
  confirm_ma_ok : Option Bool := none
  strategy_type : Option String := none
  bb_upper : Option ℚ := none
  bb_lower : Option ℚ := none
  bb_middle : Option ℚ := none
  qualified : Option Bool := none
deriving DecidableEq, Repr

/-- src/strategy.py `ThresholdCache`. -/
structure ThresholdCache where
  ma_value : ℚ
  prev_ma : ℚ
  ma_rising : Bool
  trigger_low : PyFloat
  trigger_high : PyFloat
  signal_type : Option String
  last_calc : ℚ
  last_price : ℚ := 0
  signal_fired : Bool := false
  qualified : Bool := true
  ma_direction : String := "FLAT"
  n_points : ℚ := 0
  ma_period : ℕ := 0
  buy_zone : Option ZoneDesc := none
  sell_zone : Option ZoneDesc := none
  hist_closes : Option (List ℚ) := none
  confirm_hist_closes : Option (List ℚ) := none
  confirm_ma_value : Option ℚ := none
  confirm_ma_direction : Option String := none
  confirm_ma_ok : Bool := true
  strategy_type : String := "MA"
  bb_std_dev : ℚ := 2
  bb_upper : Option ℚ := none
  bb_lower : Option ℚ := none
  bb_middle : Option ℚ := none
deriving DecidableEq, Repr

/-- One OHLC bar of the daily-history input (and of the stored candles). -/
structure Bar where
  time : ℤ := 0
  bopen : ℚ := 0
  high : ℚ := 0
  low : ℚ := 0
  close : ℚ
deriving DecidableEq, Repr

/-- The mutable state owned by src/strategy.py `StrategyEngine`. -/
structure StrategyEngine where
  watch_list : List (String × WatchItem) := []
  signals : List Signal := []
  latest_data : List (String × LatestData) := []
  thresholds : List (String × ThresholdCache) := []
  candles : List (String × List Bar) := []
deriving DecidableEq, Repr

/-- Mean of the window `closes[i-period+1 : i+1]` used by the rolling MA
(src/strategy.py `calculate_ma`, loop body). -/
def smaAt (closes : List ℚ) (period i : ℕ) : ℚ :=
  (((closes.drop (i + 1 - period)).take period).sum) / (period : ℚ)

/-- src/strategy.py `StrategyEngine.calculate_ma`: rolling simple moving
average with `None` before the window fills. The pandas branch
(`rolling(period).mean()`) and the plain-Python fallback compute the same
values. -/
def calculate_ma (closes : List ℚ) (period : ℕ) : List (Option ℚ) :=
  (List.range closes.length).map fun i =>
    if period - 1 ≤ i then some (smaAt closes period i) else none

/-- Population variance of the window ending at `i` (variance divided by
the window length), as in the plain-Python fallback of `calculate_std`. -/
def popVarAt (closes : List ℚ) (period i : ℕ) : ℚ :=
  let window := (closes.drop (i + 1 - period)).take period
  let mean := window.sum / (period : ℚ)
  ((window.map (fun x => (x - mean) ^ 2)).sum) / (period : ℚ)

/-- Sample variance of the window ending at `i` (ddof = 1, variance divided
by `period - 1`), as computed by pandas `rolling(period).std()`. -/
def sampleVarAt (closes : List ℚ) (period i : ℕ) : ℚ :=
  let window := (closes.drop (i + 1 - period)).take period
  let mean := window.sum / (period : ℚ)
  ((window.map (fun x => (x - mean) ^ 2)).sum) / ((period : ℚ) - 1)

/-- src/strategy.py `StrategyEngine.calculate_std`. With pandas present the
source calls `df["close"].rolling(period).std()`, the sample standard
deviation with ddof = 1 (NaN, i.e. `none`, when `period < 2`); the
plain-Python fallback computes the population standard deviation
(`variance ** 0.5` with variance divided by `period`). `sf` abstracts the
square root. -/
def calculate_std (hasPandas : Bool) (sf : ℚ → ℚ) (closes : List ℚ)
    (period : ℕ) : List (Option ℚ) :=
  (List.range closes.length).map fun i =>
    if period - 1 ≤ i then
      if hasPandas then
        if 2 ≤ period then some (sf (sampleVarAt closes period i)) else none
      else some (sf (popVarAt closes period i))
    else none

/-- Trigger-zone computation shared by `calculate_thresholds` and
`check_price`: given the (possibly realtime) MA, its direction, the BB
bands and the watch, produce
`(trigger_low, trigger_high, signal_type, buy_zone, sell_zone)`. -/
def triggerZone (watch : WatchItem) (strat : String) (ma : ℚ)
    (ma_rising ma_falling : Bool) (bb_upper bb_lower : Option ℚ) :
    PyFloat × PyFloat × Option String × Option ZoneDesc × Option ZoneDesc :=
  if strat == "MA" then
    if ma_rising then
      (.fin ma, .fin (ma + watch.n_points), some "BUY",
       some (.range (pyRound 2 ma) (pyRound 2 (ma + watch.n_points))), none)
    else if ma_falling then
      (.fin (ma - watch.n_points), .fin ma, some "SELL",
       none, some (.range (pyRound 2 (ma - watch.n_points)) (pyRound 2 ma)))
    else (.fin 0, .fin 0, none, none, none)
  else
    if watch.direction == "LONG" && qTruthy bb_lower then
      (.fin 0, .fin (bb_lower.getD 0 + watch.n_points), some "BUY",
       some (.below (pyRound 2 (bb_lower.getD 0 + watch.n_points))), none)
    else if watch.direction == "SHORT" && qTruthy bb_upper then
      (.fin (bb_upper.getD 0 - watch.n_points), .inf, some "SELL",
       none, some (.above (pyRound 2 (bb_upper.getD 0 - watch.n_points))))
    else (.fin 0, .fin 0, none, none, none)

/-- The confirmation-MA block of `calculate_thresholds` (value, direction,
ok flag, trailing closes). -/
def confirmCalc (watch : WatchItem) (closes : List ℚ) (length : ℕ) :
    Option ℚ × Option String × Bool × Option (List ℚ) :=
  if watch.confirm_ma_enabled && decide (0 < watch.confirm_ma_period) &&
     decide (watch.confirm_ma_period + 1 ≤ length) then
    let cma := calculate_ma closes watch.confirm_ma_period
    if cma.length < 2 then (none, none, true, none)
    else
      match negIdx cma 1, negIdx cma 2 with
      | some ccur, some cprev =>
        let cdir := if cprev < ccur then "RISING"
          else if ccur < cprev then "FALLING" else "FLAT"
        let cok := if watch.direction == "LONG" then cdir == "RISING"
          else cdir == "FALLING"
        (some (pyRound 4 ccur), some cdir, cok,
         some (tailSlice closes (watch.confirm_ma_period - 1)))
      | _, _ => (none, none, true, none)
  else (none, none, true, none)

/-- The pure computation of `calculate_thresholds` (src/strategy.py lines
216-364): guards, rolling MA, BB bands, trigger zone, confirmation MA, and
the new `ThresholdCache` record. `none` models the `return None` paths. -/
def threshCacheOf (sf : ℚ → ℚ) (hasPandas : Bool) (watch : WatchItem)
    (bars : List Bar) (nowTs : ℚ) : Option ThresholdCache :=
  if ¬ watch.enabled then none
  else if bars.length < watch.ma_period + 1 then none
  else
    let closes := bars.map (·.close)
    let ma := calculate_ma closes watch.ma_period
    if ma.length < 2 then none
    else
      match negIdx ma 1, negIdx ma 2 with
      | some current_ma, some prev_ma =>
        let hist_closes := tailSlice closes (watch.ma_period - 1)
        let ma_rising := decide (prev_ma < current_ma)
        let ma_falling := decide (current_ma < prev_ma)
        let isBB := watch.strategy_type == "BB"
        let current_std : ℚ :=
          if isBB then
            match negIdx (calculate_std hasPandas sf closes watch.ma_period) 1 with
            | some v => v
            | none => 0
          else 0
        let bb_upper : Option ℚ :=
          if isBB then some (current_ma + watch.bb_std_dev * current_std) else none
        let bb_lower : Option ℚ :=
          if isBB then some (current_ma - watch.bb_std_dev * current_std) else none
        let bb_middle : ℚ := current_ma
        let z := triggerZone watch watch.strategy_type current_ma ma_rising
          ma_falling bb_upper bb_lower
        let ma_direction := if ma_rising then "RISING"
          else if ma_falling then "FALLING" else "FLAT"
        let cf := confirmCalc watch closes bars.length
        some {
          ma_value := pyRound 4 current_ma
          prev_ma := pyRound 4 prev_ma
          ma_rising := ma_rising
          trigger_low := z.1.round4
          trigger_high := z.2.1.round4
          signal_type := z.2.2.1
          last_calc := nowTs
          signal_fired := false
          ma_direction := ma_direction
          n_points := watch.n_points
          ma_period := watch.ma_period
          buy_zone := z.2.2.2.1
          sell_zone := z.2.2.2.2
          hist_closes := some hist_closes
          confirm_hist_closes := cf.2.2.2
          confirm_ma_value := cf.1
          confirm_ma_direction := cf.2.1
          confirm_ma_ok := cf.2.2.1
          strategy_type := watch.strategy_type
          bb_std_dev := watch.bb_std_dev
          bb_upper := if qTruthy bb_upper then some (pyRound 4 (bb_upper.getD 0)) else none
          bb_lower := if qTruthy bb_lower then some (pyRound 4 (bb_lower.getD 0)) else none
          bb_middle := if bb_middle = 0 then none else some (pyRound 4 bb_middle) }
      | _, _ => none

/-- The initial frontend snapshot stored by `calculate_thresholds`
(no live price yet). -/
def initialLatestData (watch : WatchItem) (cache : ThresholdCache)
    (nowIso : String) : LatestData :=
  { symbol := watch.symbol
    current_price := 0
    ma_value := cache.ma_value
    prev_ma := cache.prev_ma
    ma_period := cache.ma_period
    ma_direction := cache.ma_direction
    n_points := cache.n_points
    distance_from_ma := 0
    buy_zone := cache.buy_zone
    sell_zone := cache.sell_zone
    last_updated := nowIso }

/-- The last-120-bars slice stored as chart candles. -/
def candleSlice (bars : List Bar) : List Bar :=
  if 120 < bars.length then bars.drop (bars.length - 120) else bars

/-- src/strategy.py `StrategyEngine.calculate_thresholds`: compute MA (and
BB bands) from daily bars, pre-compute the trigger zone, store the new
`ThresholdCache`, the candles and the initial frontend snapshot. `nowTs`
models `time.time()` and `nowIso` models `datetime.now().isoformat()`. -/
def calculate_thresholds (sf : ℚ → ℚ) (hasPandas : Bool)
    (eng : StrategyEngine) (watch_id : String) (df : Option (List Bar))
    (watch : WatchItem) (nowTs : ℚ) (nowIso : String) :
    StrategyEngine × Option ThresholdCache :=
  match df with
  | none => (eng, none)
  | some bars =>
    match threshCacheOf sf hasPandas watch bars nowTs with
    | none => (eng, none)
    | some cache =>
      ({ eng with
          thresholds := dictSet eng.thresholds watch_id cache
          candles := dictSet eng.candles watch_id (candleSlice bars)
          latest_data := dictSet eng.latest_data watch_id
            (initialLatestData watch cache nowIso) },
       some cache)

/-- The initial-qualification block of `check_price` (runs only when
`last_price == 0`, i.e. on the first tick of a baseline generation).
LONG needs the first price at or above the baseline MA (middle band for
BB), SHORT at or below; otherwise `qualified` is latched false. -/
def qualifyStep (watch : WatchItem) (cache : ThresholdCache) (price : ℚ) :
    ThresholdCache :=
  if cache.last_price = 0 then
    if cache.strategy_type == "MA" then
      if watch.direction == "LONG" && decide (price < cache.ma_value) then
        { cache with qualified := false }
      else if watch.direction == "SHORT" && decide (cache.ma_value < price) then
        { cache with qualified := false }
      else cache
    else
      if watch.direction == "LONG" && decide (price < cache.ma_value) then
        { cache with qualified := false }
      else if watch.direction == "SHORT" && decide (cache.ma_value < price) then
        { cache with qualified := false }
      else cache
  else cache

/-- Realtime population variance over the saved trailing closes plus the
live price (`check_price` BB branch). -/
def realtimeVar (hist : List ℚ) (price : ℚ) : ℚ :=
  let all_closes := hist ++ [price]
  let mean := all_closes.sum / (all_closes.length : ℚ)
  ((all_closes.map (fun x => (x - mean) ^ 2)).sum) / (all_closes.length : ℚ)

/-- The live recomputation result of one `check_price` tick. -/
structure LiveEval where
  realtime_ma : ℚ
  prev_ma : ℚ
  ma_direction : String
  trigger_low : PyFloat
  trigger_high : PyFloat
  signal_type : Option String
  buy_zone : Option ZoneDesc
  sell_zone : Option ZoneDesc
  confirm_ma_value : Option ℚ
  confirm_ma_direction : Option String
  confirm_ma_ok : Bool
  bb_upper : Option ℚ
  bb_lower : Option ℚ
  bb_middle : ℚ
deriving DecidableEq, Repr

/-- The pure live recomputation of `check_price` (realtime MA over saved
closes plus the tick price, realtime BB bands, trigger zone and realtime
confirmation MA), lines 460-540 of src/strategy.py. -/
def liveEval (sf : ℚ → ℚ) (watch : WatchItem) (cache : ThresholdCache)
    (price : ℚ) : LiveEval :=
  let histT := listTruthy cache.hist_closes
  let hist := cache.hist_closes.getD []
  let realtime_ma :=
    if histT then (hist.sum + price) / ((hist.length : ℚ) + 1)
    else cache.ma_value
  let prev_ma := if histT then cache.ma_value else cache.prev_ma
  let ma_rising := decide (prev_ma < realtime_ma)
  let ma_falling := decide (realtime_ma < prev_ma)
  let ma_direction := if ma_rising then "RISING"
    else if ma_falling then "FALLING" else "FLAT"
  let bbT := cache.strategy_type == "BB" && histT
  let bb_upper : Option ℚ :=
    if bbT then some (realtime_ma + cache.bb_std_dev * sf (realtimeVar hist price))
    else cache.bb_upper
  let bb_lower : Option ℚ :=
    if bbT then some (realtime_ma - cache.bb_std_dev * sf (realtimeVar hist price))
    else cache.bb_lower
  let z := triggerZone watch cache.strategy_type realtime_ma ma_rising
    ma_falling bb_upper bb_lower
  let cT := watch.confirm_ma_enabled && listTruthy cache.confirm_hist_closes
  let cf : Option ℚ × Option String × Bool :=
    if cT then
      let ch := cache.confirm_hist_closes.getD []
      let crma := (ch.sum + price) / ((ch.length : ℚ) + 1)
      let cprev := match cache.confirm_ma_value with
        | some v => if v = 0 then crma else v
        | none => crma
      let cdir := if cprev < crma then "RISING"
        else if crma < cprev then "FALLING" else "FLAT"
      let cok := if watch.direction == "LONG" then cdir == "RISING"
        else cdir == "FALLING"
      (some (pyRound 4 crma), some cdir, cok)
    else (cache.confirm_ma_value, cache.confirm_ma_direction, true)
  { realtime_ma := realtime_ma
    prev_ma := prev_ma
    ma_direction := ma_direction
    trigger_low := z.1
    trigger_high := z.2.1
    signal_type := z.2.2.1
    buy_zone := z.2.2.2.1
    sell_zone := z.2.2.2.2
    confirm_ma_value := cf.1
    confirm_ma_direction := cf.2.1
    confirm_ma_ok := cf.2.2
    bb_upper := bb_upper
    bb_lower := bb_lower
    bb_middle := realtime_ma }

/-- The frontend snapshot written by every qualified `check_price` tick. -/
def liveLatestData (watch : WatchItem) (cache : ThresholdCache)
    (lv : LiveEval) (price : ℚ) (nowIso : String) : LatestData :=
  { symbol := watch.symbol
    current_price := price
    ma_value := pyRound 4 lv.realtime_ma
    prev_ma := pyRound 4 lv.prev_ma
    ma_period := cache.ma_period
    ma_direction := lv.ma_direction
    n_points := cache.n_points
    distance_from_ma := pyRound 4 (price - lv.realtime_ma)
    buy_zone := lv.buy_zone
    sell_zone := lv.sell_zone
    last_updated := nowIso
    confirm_ma_enabled := some watch.confirm_ma_enabled
    confirm_ma_period := some watch.confirm_ma_period
    confirm_ma_value := lv.confirm_ma_value
    confirm_ma_direction := lv.confirm_ma_direction
    confirm_ma_ok := some lv.confirm_ma_ok
    strategy_type := some cache.strategy_type
    bb_upper := if qTruthy lv.bb_upper then some (pyRound 4 (lv.bb_upper.getD 0)) else none
    bb_lower := if qTruthy lv.bb_lower then some (pyRound 4 (lv.bb_lower.getD 0)) else none
    bb_middle := if lv.bb_middle = 0 then none else some (pyRound 4 lv.bb_middle)
    qualified := some cache.qualified }

/-- src/strategy.py `StrategyEngine.check_price`: evaluate one streaming
tick for one watch. Returns the updated engine state and the fired signal,
if any. -/
def check_price (sf : ℚ → ℚ) (eng : StrategyEngine) (watch_id : String)
    (price : ℚ) (nowIso : String) : StrategyEngine × Option Signal :=
  match dictGet eng.thresholds watch_id with
  | none => (eng, none)
  | some cache0 =>
    if ¬ strTruthy cache0.signal_type then (eng, none)
    else
      match dictGet eng.watch_list watch_id with
      | none => (eng, none)
      | some watch =>
        if ¬ watch.enabled then (eng, none)
        else
          let cache1 := qualifyStep watch cache0 price
          if ¬ cache1.qualified then
            let cacheU := { cache1 with last_price := price }
            ({ eng with thresholds := dictSet eng.thresholds watch_id cacheU },
             none)
          else
            let lv := liveEval sf watch cache1 price
            let ld := liveLatestData watch cache1 lv price nowIso
            let cache2 := { cache1 with last_price := price }
            let eng1 := { eng with
              latest_data := dictSet eng.latest_data watch_id ld
              thresholds := dictSet eng.thresholds watch_id cache2 }
            if watch.direction == "LONG" && !(lv.signal_type == some "BUY") then
              (eng1, none)
            else if watch.direction == "SHORT" && !(lv.signal_type == some "SELL") then
              (eng1, none)
            else
              let in_zone := PyFloat.ple lv.trigger_low (.fin price) &&
                PyFloat.ple (.fin price) lv.trigger_high
              if ¬ lv.confirm_ma_ok then (eng1, none)
              else if in_zone && !cache2.signal_fired then
                let cache3 := { cache2 with signal_fired := true }
                let signal : Signal := {
                  timestamp := nowIso
                  watch_id := watch_id
                  symbol := watch.symbol
                  signal_type := lv.signal_type
                  price := price
                  ma_value := pyRound 4 lv.realtime_ma
                  ma_period := cache2.ma_period
                  n_points := cache2.n_points
                  distance := |pyRound 4 (price - lv.realtime_ma)| }
                ({ eng1 with
                    thresholds := dictSet eng1.thresholds watch_id cache3
                    signals := eng1.signals ++ [signal] },
                 some signal)
              else (eng1, none)

/-- Run `check_price` for one watch over a list of ticks
`(price, iso-timestamp)`, collecting the emitted signals in order. -/
def runTicks (sf : ℚ → ℚ) (eng : StrategyEngine) (watch_id : String) :
    List (ℚ × String) → StrategyEngine × List Signal
  | [] => (eng, [])
  | t :: ts =>
    let r := check_price sf eng watch_id t.1 t.2
    let rest := runTicks sf r.1 watch_id ts
    (rest.1, r.2.toList ++ rest.2)

/-- A partial update dict for `update_watch`: `some v` means the key is
present in the dict. Keys that are not WatchItem attributes are ignored by
the source (`hasattr` guard), so only attribute keys are modelled. -/
structure WatchUpdates where
  id : Option String := none
  symbol : Option String := none
  sec_type : Option String := none
  exchange : Option String := none
  currency : Option String := none
  ma_period : Option ℕ := none
  n_points : Option ℚ := none
  enabled : Option Bool := none
  contract_month : Option String := none
  direction : Option String := none
  confirm_ma_enabled : Option Bool := none
  confirm_ma_period : Option ℕ := none
  strategy_type : Option String := none
  bb_std_dev : Option ℚ := none
  timeframe : Option String := none
deriving DecidableEq, Repr

/-- The `setattr` loop of `update_watch`: apply every present key. -/
def applyUpdates (item : WatchItem) (u : WatchUpdates) : WatchItem :=
  { id := u.id.getD item.id
    symbol := u.symbol.getD item.symbol
    sec_type := u.sec_type.getD item.sec_type
    exchange := u.exchange.getD item.exchange
    currency := u.currency.getD item.currency
    ma_period := u.ma_period.getD item.ma_period
    n_points := u.n_points.getD item.n_points
    enabled := u.enabled.getD item.enabled
    contract_month := u.contract_month.getD item.contract_month
    direction := u.direction.getD item.direction
    confirm_ma_enabled := u.confirm_ma_enabled.getD item.confirm_ma_enabled
    confirm_ma_period := u.confirm_ma_period.getD item.confirm_ma_period
    strategy_type := u.strategy_type.getD item.strategy_type
    bb_std_dev := u.bb_std_dev.getD item.bb_std_dev
    timeframe := u.timeframe.getD item.timeframe }

/-- src/strategy.py line 177:
`any(k in updates for k in ('ma_period', 'n_points', 'direction', 'enabled'))`. -/
def invalidatesThresholds (u : WatchUpdates) : Bool :=
  u.ma_period.isSome || u.n_points.isSome || u.direction.isSome || u.enabled.isSome

/-- src/strategy.py `StrategyEngine.update_watch`. -/
def update_watch (eng : StrategyEngine) (watch_id : String)
    (u : WatchUpdates) : StrategyEngine :=
  match dictGet eng.watch_list watch_id with
  | none => eng
  | some item =>
    let eng1 := { eng with
      watch_list := dictSet eng.watch_list watch_id (applyUpdates item u) }
    if invalidatesThresholds u then
      { eng1 with thresholds := dictPop eng1.thresholds watch_id }
    else eng1

/-- src/strategy.py `StrategyEngine.remove_watch`. -/
def remove_watch (eng : StrategyEngine) (watch_id : String) : StrategyEngine :=
  { eng with
    watch_list := dictPop eng.watch_list watch_id
    thresholds := dictPop eng.thresholds watch_id
    latest_data := dictPop eng.latest_data watch_id
    candles := dictPop eng.candles watch_id }

/-- src/ib_manager.py `_sync_get_option_contracts` strike selection (lines
344-363 for futures, 406-412 for stocks — the formula is identical): sort
the available strikes, calls take the first `num_strikes` strictly above
the reference price, puts take the first `num_strikes` strictly below in
reversed (descending) order. `List.insertionSort` models Python `sorted`. -/
def otmStrikes (strikes : List ℚ) (right : String) (ma_price : ℚ)
    (num_strikes : ℕ) : List ℚ :=
  let all_strikes := strikes.insertionSort (· ≤ ·)
  if right == "C" then
    (all_strikes.filter (fun s => decide (ma_price < s))).take num_strikes
  else
    ((all_strikes.filter (fun s => decide (s < ma_price))).reverse).take num_strikes

/-- One leg of an active trade (the fields the exit monitor reads). -/
structure OrderInfo where
  conId : Option ℕ := none
  qty_requested : Option ℕ := none
deriving DecidableEq, Repr

/-- `exit["time"]`: time-of-day exit configuration. -/
structure TimeExitCfg where
  enabled : Bool := false
  value : String := ""
deriving DecidableEq, Repr

/-- `exit["ma"]`: indicator-relative exit configuration. -/
structure MaExitCfg where
  enabled : Bool := false
  cond : String := "above"
  dir : String := "+"
  pts : ℚ := 5
deriving DecidableEq, Repr

/-- `exit["bb"]`: band-relative exit configuration. -/
structure BbExitCfg where
  enabled : Bool := false
  target : String := "middle"
deriving DecidableEq, Repr

/-- The exit-strategy configuration dict of an active trade. -/
structure ExitCfg where
  timeCfg : TimeExitCfg := {}
  maCfg : MaExitCfg := {}
  bbCfg : BbExitCfg := {}
deriving DecidableEq, Repr

/-- An active trade as stored in src/app.py `_active_trades`. -/
structure Trade where
  id : String
  watch_id : String
  symbol : String := ""
  direction : String := "BUY"
  entry_time : String := ""
  orders : List OrderInfo := []
  exitCfg : ExitCfg := {}
  status : String := "filled"
deriving DecidableEq, Repr

/-- Per-tick environment read by the exit monitor for one trade:
the wall clock (`datetime.now().strftime("%H:%M")`), the trade's watch
threshold cache and its frontend snapshot. -/
structure TickEnv where
  now_time : String
  threshold : Option ThresholdCache
  latest : Option LatestData
deriving DecidableEq, Repr

/-- One tick of the exit-strategy monitoring section of src/app.py
`monitor_loop` (lines 391-496) for a single trade. Returns the trade's new
state and the list of exit rules that fired this tick, in order — each
firing issues one batch of closing market orders through the gateway and
drives the status through "exiting" to "closed". -/
def processTradeTick (env : TickEnv) (trade : Trade) : Trade × List String :=
  if ¬ (trade.status == "filled" || trade.status == "exiting") then (trade, [])
  else
    let r1 :=
      if trade.exitCfg.timeCfg.enabled && trade.exitCfg.timeCfg.value != "" &&
         decide (trade.exitCfg.timeCfg.value ≤ env.now_time) &&
         trade.status != "exiting" then
        ({ trade with status := "closed" }, ["time"])
      else (trade, ([] : List String))
    let t1 := r1.1
    let r2 :=
      if t1.exitCfg.maCfg.enabled && t1.status != "exiting" then
        match env.threshold with
        | some th =>
          if decide (0 < th.last_price) then
            let current_price := th.last_price
            let target := if t1.exitCfg.maCfg.dir == "+" then
                th.ma_value + t1.exitCfg.maCfg.pts
              else th.ma_value - t1.exitCfg.maCfg.pts
            let triggered :=
              (t1.exitCfg.maCfg.cond == "above" && decide (target < current_price)) ||
              (t1.exitCfg.maCfg.cond == "below" && decide (current_price < target))
            if triggered then ({ t1 with status := "closed" }, ["ma"])
            else (t1, ([] : List String))
          else (t1, ([] : List String))
        | none => (t1, ([] : List String))
      else (t1, ([] : List String))
    let t2 := r2.1
    let r3 :=
      if t2.exitCfg.bbCfg.enabled && t2.status != "exiting" then
        match env.threshold with
        | some th =>
          if decide (0 < th.last_price) then
            let current_price := th.last_price
            let bb_middle : Option ℚ := match env.latest with
              | none => none
              | some d => if qTruthy d.bb_middle then d.bb_middle else some d.ma_value
            let bb_upper : Option ℚ := match env.latest with
              | none => none
              | some d => d.bb_upper
            let bb_lower : Option ℚ := match env.latest with
              | none => none
              | some d => d.bb_lower
            let triggered :=
              if t2.exitCfg.bbCfg.target == "middle" && qTruthy bb_middle then
                (t2.direction == "BUY" && decide (bb_middle.getD 0 ≤ current_price)) ||
                (t2.direction == "SELL" && decide (current_price ≤ bb_middle.getD 0))
              else if t2.exitCfg.bbCfg.target == "opposite" then
                (t2.direction == "BUY" && qTruthy bb_upper &&
                  decide (bb_upper.getD 0 ≤ current_price)) ||
                (t2.direction == "SELL" && qTruthy bb_lower &&
                  decide (current_price ≤ bb_lower.getD 0))
              else false
            if triggered then ({ t2 with status := "closed" }, ["bb"])
            else (t2, ([] : List String))
          else (t2, ([] : List String))
        | none => (t2, ([] : List String))
      else (t2, ([] : List String))
    (r3.1, r1.2 ++ r2.2 ++ r3.2)

/-- The hourly-recalculation body of src/app.py `monitor_loop` for one
watch (lines 502-517): refetch bars, recompute thresholds, then re-select
(and re-price) the option contracts only when the new baseline value
drifted from the cached option reference (`_options_cache[...]["ma_price"]`,
0 when absent) by more than `n_points * 0.5`. Returns the new engine, the
option-cache reference price and whether contracts were re-selected. -/
def hourlyRecalcStep (sf : ℚ → ℚ) (hasPandas : Bool) (eng : StrategyEngine)
    (watch_id : String) (watch : WatchItem) (df : Option (List Bar))
    (optRef : Option ℚ) (nowTs : ℚ) (nowIso : String) :
    StrategyEngine × Option ℚ × Bool :=
  if ¬ watch.enabled then (eng, optRef, false)
  else
    match df with
    | none => (eng, optRef, false)
    | some bars =>
      if bars.length < watch.ma_period + 1 then (eng, optRef, false)
      else
        match calculate_thresholds sf hasPandas eng watch_id (some bars) watch nowTs nowIso with
        | (eng1, some new_cache) =>
          let old_ma := optRef.getD 0
          if watch.n_points * (1/2) < |new_cache.ma_value - old_ma| then
            (eng1, some new_cache.ma_value, true)
          else (eng1, optRef, false)
        | (eng1, none) => (eng1, optRef, false)

/-- src/app.py `place_order` quantity sizing (line 1067):
`qty = max(1, int(amount / (ask * multiplier)))`. -/
def order_qty (amount ask multiplier : ℚ) : ℤ :=
  max 1 (pyInt (amount / (ask * multiplier)))

/-- "The one-shot latch for `watch_id` is engaged": either no threshold
cache exists (so `check_price` can never fire) or its latch is set. -/
def latchEngaged (eng : StrategyEngine) (watch_id : String) : Prop :=
  ∀ c, dictGet eng.thresholds watch_id = some c → c.signal_fired = true

/-- "The watch is disqualified": any existing threshold cache for
`watch_id` has `qualified = false`. -/
def disqualified (eng : StrategyEngine) (watch_id : String) : Prop :=
  ∀ c, dictGet eng.thresholds watch_id = some c → c.qualified = false

/-- "The watch is qualified and its first tick has been consumed":
any existing threshold cache for `watch_id` has `qualified = true` and a
nonzero recorded `last_price`. -/
def qualSeen (eng : StrategyEngine) (watch_id : String) : Prop :=
  ∀ c, dictGet eng.thresholds watch_id = some c →
    c.qualified = true ∧ c.last_price ≠ 0

/-- Concrete fixture: a LONG MA watch with period 2 and 5 trigger points. -/
def watchW : WatchItem :=
  { id := "w", symbol := "SYM", ma_period := 2, n_points := 5 }

/-- Concrete fixture: three daily bars closing at 1, 1, 4 (MA rising from
1 to 5/2). -/
def dfW : List Bar := [{ close := 1 }, { close := 1 }, { close := 4 }]

/-- Concrete fixture: the engine watching `watchW`, before thresholds. -/
def engW0 : StrategyEngine := { watch_list := [("w", watchW)] }

/-- Engine state after `calculate_thresholds` on the fixture. -/
def engW : StrategyEngine :=
  (calculate_thresholds id false engW0 "w" (some dfW) watchW 0 "t0").1

/-- The threshold cache `calculate_thresholds` computes on the fixture:
MA rose from 1 to 5/2, so the trigger zone is [5/2, 15/2] implying BUY. -/
def cacheW : ThresholdCache where
  ma_value := 5/2
  prev_ma := 1
  ma_rising := true
  trigger_low := .fin (5/2)
  trigger_high := .fin (15/2)
  signal_type := some "BUY"
  last_calc := 0
  last_price := 0
  signal_fired := false
  qualified := true
  ma_direction := "RISING"
  n_points := 5
  ma_period := 2
  buy_zone := some (.range (5/2) (15/2))
  sell_zone := none
  hist_closes := some [4]
  confirm_hist_closes := none
  confirm_ma_value := none
  confirm_ma_direction := none
  confirm_ma_ok := true
  strategy_type := "MA"
  bb_std_dev := 2
  bb_upper := none
  bb_lower := none
  bb_middle := some (5/2)

/-- Concrete fixture for the exit monitor: a threshold cache whose MA is 5
with a live price of 10. -/
def thC2 : ThresholdCache where
  ma_value := 5
  prev_ma := 0
  ma_rising := true
  trigger_low := .fin 0
  trigger_high := .fin 0
  signal_type := some "BUY"
  last_calc := 0
  last_price := 10

/-- Concrete fixture: exit-monitor environment at wall-clock 12:00. -/
def envC2 : TickEnv :=
  { now_time := "12:00", threshold := some thC2, latest := none }

/-- Concrete fixture: a filled trade with a time exit at "00:00" (already
due) and an MA exit (above, MA + 0) whose condition also holds. -/
def tradeC2 : Trade where
  id := "t1"
  watch_id := "w"
  status := "filled"
  exitCfg :=
    { timeCfg := { enabled := true, value := "00:00" }
      maCfg := { enabled := true, cond := "above", dir := "+", pts := 0 } }

/-- Scenario-E fixture: bars whose MA(2) lands at 100.4. -/
def dfA6 : List Bar := [{ close := 90 }, { close := 100 }, { close := 1008/10 }]

/-- Scenario-E fixture: bars whose MA(2) lands at 103.2. -/
def dfB6 : List Bar := [{ close := 90 }, { close := 100 }, { close := 1064/10 }]

/-- C8 fixture: a BB watch (period 2, 1 standard deviation, 1 point). -/
def watchBB : WatchItem where
  id := "w8"
  symbol := "S"
  ma_period := 2
  n_points := 1
  strategy_type := "BB"
  bb_std_dev := 1

/-- C8 fixture: closes 5, 1, 3 — the final window [1, 3] has population
variance 1 but sample variance (ddof = 1) 2. -/
def dfC8 : List Bar := [{ close := 5 }, { close := 1 }, { close := 3 }]

/-- C8's claim stated from the spec's words: the bands are
`MA ± bb_std_dev · σ` where σ is the population standard deviation of the
closes over the `ma_period` window (variance divided by the window length,
not length − 1), at the stored 4-decimal precision. -/
def specPopStdBands (sf : ℚ → ℚ) (closes : List ℚ) (period : ℕ) (k : ℚ) :
    ℚ × ℚ :=
  let ma := smaAt closes period (closes.length - 1)
  let sigma := sf (popVarAt closes period (closes.length - 1))
  (pyRound 4 (ma + k * sigma), pyRound 4 (ma - k * sigma))

/-! ## Helper lemmas -/

theorem lookup_append_self {β : Type} (d : List (String × β)) (k : String)
    (v : β) (h : d.any (fun p => p.1 == k) = false) :
    List.lookup k (d ++ [(k, v)]) = some v := by
  induction d with
  | nil => simp [List.lookup_cons]
  | cons a t ih =>
    obtain ⟨a1, a2⟩ := a
    simp only [List.any_cons, Bool.or_eq_false_iff] at h
    have hkb : (k == a1) = false := by
      have := h.1
      simp only [beq_eq_false_iff_ne] at this ⊢
      exact fun hk => this (by simp [hk])
    simp only [List.cons_append, List.lookup_cons, hkb]
    exact ih h.2

theorem lookup_map_set_self {β : Type} (d : List (String × β)) (k : String)
    (v : β) (h : d.any (fun p => p.1 == k) = true) :
    List.lookup k (d.map (fun p => if p.1 == k then (k, v) else p)) = some v := by
  induction d with
  | nil => simp at h
  | cons a t ih =>
    obtain ⟨a1, a2⟩ := a
    by_cases hak : a1 = k
    · subst hak
      simp [List.lookup_cons]
    · have hb : (a1 == k) = false := by simpa using hak
      have h' : t.any (fun p => p.1 == k) = true := by
        simpa [List.any_cons, hb] using h
      have hkb : (k == a1) = false := by
        simpa using fun hk => hak hk.symm
      simp only [List.map_cons, hb, Bool.false_eq_true, if_false,
        List.lookup_cons, hkb]
      exact ih h'

theorem dictGet_dictSet_self {β : Type} (d : List (String × β)) (k : String)
    (v : β) : dictGet (dictSet d k v) k = some v := by
  unfold dictGet dictSet
  by_cases h : d.any (fun p => p.1 == k) = true
  · rw [if_pos h]
    exact lookup_map_set_self d k v h
  · rw [if_neg h]
    rw [Bool.not_eq_true] at h
    exact lookup_append_self d k v h

theorem dictGet_dictPop_self {β : Type} (d : List (String × β)) (k : String) :
    dictGet (dictPop d k) k = none := by
  unfold dictGet dictPop
  induction d with
  | nil => rfl
  | cons a t ih =>
    obtain ⟨a1, a2⟩ := a
    by_cases hak : a1 = k
    · have hf : ((a1, a2).1 != k) = false := by simpa using hak
      simpa [List.filter_cons, hf] using ih
    · have hne : ((a1, a2).1 != k) = true := by simpa using hak
      have hkb : (k == a1) = false := by
        simpa using fun hk => hak hk.symm
      simp only [List.filter_cons, hne, if_true, List.lookup_cons, hkb]
      exact ih

theorem dictPop_idem {β : Type} (d : List (String × β)) (k : String) :
    dictPop (dictPop d k) k = dictPop d k := by
  unfold dictPop
  rw [List.filter_filter]
  simp

theorem dictPop_of_get_none {β : Type} (d : List (String × β)) (k : String)
    (h : dictGet d k = none) : dictPop d k = d := by
  unfold dictGet at h
  unfold dictPop
  induction d with
  | nil => rfl
  | cons a t ih =>
    obtain ⟨a1, a2⟩ := a
    by_cases hak : k = a1
    · exfalso
      subst hak
      simp [List.lookup_cons] at h
    · have hkb : (k == a1) = false := by simpa using hak
      simp only [List.lookup_cons, hkb] at h
      have hne : ((a1, a2).1 != k) = true := by
        simpa using fun hk => hak hk.symm
      simp only [List.filter_cons, hne, if_true]
      rw [ih h]

theorem qualifyStep_cases (w : WatchItem) (c : ThresholdCache) (p : ℚ) :
    qualifyStep w c p = c ∨ qualifyStep w c p = { c with qualified := false } := by
  unfold qualifyStep
  split_ifs <;> simp

theorem qualifyStep_signal_fired (w : WatchItem) (c : ThresholdCache) (p : ℚ) :
    (qualifyStep w c p).signal_fired = c.signal_fired := by
  rcases qualifyStep_cases w c p with h | h <;> rw [h]

theorem qualifyStep_last_price (w : WatchItem) (c : ThresholdCache) (p : ℚ) :
    (qualifyStep w c p).last_price = c.last_price := by
  rcases qualifyStep_cases w c p with h | h <;> rw [h]

theorem qualifyStep_qualified_false (w : WatchItem) (c : ThresholdCache)
    (p : ℚ) (h : c.qualified = false) : (qualifyStep w c p).qualified = false := by
  rcases qualifyStep_cases w c p with h' | h' <;> rw [h'] <;> simp [h]

theorem qualifyStep_skip (w : WatchItem) (c : ThresholdCache) (p : ℚ)
    (h : c.last_price ≠ 0) : qualifyStep w c p = c := by
  unfold qualifyStep
  rw [if_neg h]

theorem qualifyStep_fresh (w : WatchItem) (c : ThresholdCache) (p : ℚ)
    (h0 : c.last_price = 0) (hq : c.qualified = true) :
    (qualifyStep w c p).qualified =
      !((w.direction == "LONG" && decide (p < c.ma_value)) ||
        (w.direction == "SHORT" && decide (c.ma_value < p))) := by
  unfold qualifyStep
  rw [if_pos h0]
  split <;> split_ifs <;> simp_all <;> tauto

theorem check_price_latch_engaged (sf : ℚ → ℚ) (eng : StrategyEngine)
    (wid : String) (p : ℚ) (now : String) (h : latchEngaged eng wid) :
    (check_price sf eng wid p now).2 = none ∧
      latchEngaged (check_price sf eng wid p now).1 wid := by
  unfold check_price
  cases hc : dictGet eng.thresholds wid with
  | none => exact ⟨rfl, h⟩
  | some c0 =>
    have hcf : c0.signal_fired = true := h c0 hc
    simp only []
    split
    · exact ⟨rfl, h⟩
    · cases hw : dictGet eng.watch_list wid with
      | none => exact ⟨rfl, h⟩
      | some w =>
        simp only []
        split
        · exact ⟨rfl, h⟩
        · split
          · refine ⟨rfl, ?_⟩
            intro c hgc
            simp only [dictGet_dictSet_self, Option.some.injEq] at hgc
            subst hgc
            simp [qualifyStep_signal_fired, hcf]
          · split
            · refine ⟨rfl, ?_⟩
              intro c hgc
              simp only [dictGet_dictSet_self, Option.some.injEq] at hgc
              subst hgc
              simp [qualifyStep_signal_fired, hcf]
            · split
              · refine ⟨rfl, ?_⟩
                intro c hgc
                simp only [dictGet_dictSet_self, Option.some.injEq] at hgc
                subst hgc
                simp [qualifyStep_signal_fired, hcf]
              · split
                · refine ⟨rfl, ?_⟩
                  intro c hgc
                  simp only [dictGet_dictSet_self, Option.some.injEq] at hgc
                  subst hgc
                  simp [qualifyStep_signal_fired, hcf]
                · split
                  · rename_i hfire
                    exfalso
                    rw [qualifyStep_signal_fired, hcf] at hfire
                    simp at hfire
                  · refine ⟨rfl, ?_⟩
                    intro c hgc
                    simp only [dictGet_dictSet_self, Option.some.injEq] at hgc
                    subst hgc
                    simp [qualifyStep_signal_fired, hcf]

theorem check_price_fires_latch (sf : ℚ → ℚ) (eng : StrategyEngine)
    (wid : String) (p : ℚ) (now : String) (s : Signal) (eng' : StrategyEngine)
    (h : check_price sf eng wid p now = (eng', some s)) :
    latchEngaged eng' wid := by
  unfold check_price at h
  cases hc : dictGet eng.thresholds wid with
  | none => simp only [hc] at h; exact absurd (congrArg Prod.snd h) (by simp)
  | some c0 =>
    simp only [hc] at h
    split at h
    · exact absurd (congrArg Prod.snd h) (by simp)
    · cases hw : dictGet eng.watch_list wid with
      | none => simp only [hw] at h; exact absurd (congrArg Prod.snd h) (by simp)
      | some w =>
        simp only [hw] at h
        split at h
        · exact absurd (congrArg Prod.snd h) (by simp)
        · split at h
          · exact absurd (congrArg Prod.snd h) (by simp)
          · split at h
            · exact absurd (congrArg Prod.snd h) (by simp)
            · split at h
              · exact absurd (congrArg Prod.snd h) (by simp)
              · split at h
                · exact absurd (congrArg Prod.snd h) (by simp)
                · split at h
                  · rw [Prod.mk.injEq] at h
                    rw [← h.1]
                    intro c hgc
                    simp only [dictGet_dictSet_self, Option.some.injEq] at hgc
                    subst hgc
                    rfl
                  · exact absurd (congrArg Prod.snd h) (by simp)

theorem runTicks_latch (sf : ℚ → ℚ) (eng : StrategyEngine) (wid : String)
    (ticks : List (ℚ × String)) (h : latchEngaged eng wid) :
    (runTicks sf eng wid ticks).2 = [] ∧
      latchEngaged (runTicks sf eng wid ticks).1 wid := by
  induction ticks generalizing eng with
  | nil => exact ⟨rfl, h⟩
  | cons t ts ih =>
    have hcp := check_price_latch_engaged sf eng wid t.1 t.2 h
    have hr := ih (check_price sf eng wid t.1 t.2).1 hcp.2
    simp only [runTicks, hcp.1, hr.1, Option.toList_none, List.nil_append]
    exact ⟨trivial, hr.2⟩

/-- From any engine state, a run of ticks for one watch emits at most one
signal: firing engages the one-shot latch, and an engaged latch suppresses
all further signals. -/
theorem runTicks_le_one (sf : ℚ → ℚ) (eng : StrategyEngine) (wid : String)
    (ticks : List (ℚ × String)) :
    ((runTicks sf eng wid ticks).2).length ≤ 1 := by
  induction ticks generalizing eng with
  | nil => simp [runTicks]
  | cons t ts ih =>
    simp only [runTicks]
    cases hr : (check_price sf eng wid t.1 t.2).2 with
    | none => simpa using ih (check_price sf eng wid t.1 t.2).1
    | some s =>
      have heq : check_price sf eng wid t.1 t.2 =
          ((check_price sf eng wid t.1 t.2).1, some s) := by
        rw [← hr]
      have hl := check_price_fires_latch sf eng wid t.1 t.2 s _ heq
      have hrest := (runTicks_latch sf _ wid ts hl).1
      simp [hrest]

theorem threshCacheOf_fresh (sf : ℚ → ℚ) (hp : Bool) (watch : WatchItem)
    (bars : List Bar) (t : ℚ) (c : ThresholdCache)
    (h : threshCacheOf sf hp watch bars t = some c) :
    c.signal_fired = false ∧ c.qualified = true ∧ c.last_price = 0 := by
  unfold threshCacheOf at h
  split at h
  · exact absurd h (by simp)
  · split at h
    · exact absurd h (by simp)
    · dsimp only at h
      split at h
      · exact absurd h (by simp)
      · split at h
        · simp only [Option.some.injEq] at h
          subst h
          exact ⟨rfl, rfl, rfl⟩
        · exact absurd h (by simp)

theorem calculate_thresholds_stores (sf : ℚ → ℚ) (hp : Bool)
    (eng : StrategyEngine) (wid : String) (df : Option (List Bar))
    (watch : WatchItem) (t : ℚ) (now : String) (eng' : StrategyEngine)
    (c : ThresholdCache)
    (h : calculate_thresholds sf hp eng wid df watch t now = (eng', some c)) :
    c.signal_fired = false ∧ c.qualified = true ∧ c.last_price = 0 ∧
      dictGet eng'.thresholds wid = some c := by
  unfold calculate_thresholds at h
  cases df with
  | none => exact absurd (congrArg Prod.snd h) (by simp)
  | some bars =>
    simp only [] at h
    cases hco : threshCacheOf sf hp watch bars t with
    | none => simp only [hco] at h; exact absurd (congrArg Prod.snd h) (by simp)
    | some cache =>
      simp only [hco] at h
      rw [Prod.mk.injEq, Option.some.injEq] at h
      obtain ⟨he, hc⟩ := h
      subst hc
      obtain ⟨h1, h2, h3⟩ := threshCacheOf_fresh sf hp watch bars t cache hco
      refine ⟨h1, h2, h3, ?_⟩
      rw [← he]
      exact dictGet_dictSet_self _ _ _

/-- C1: per baseline generation, `check_price` emits at most one `Signal`
for a watch: a successful `calculate_thresholds` stores a cache whose
one-shot latch `signal_fired` is false and whose `qualified` flag is true
(their initial state), and any subsequent run of ticks for that watch
returns at most one signal, because firing sets `signal_fired := true` and
an engaged latch makes every later `check_price` return `none` until the
cache is replaced. -/
theorem signal_one_shot_per_generation (sf : ℚ → ℚ) (hp : Bool)
    (eng : StrategyEngine) (wid : String) (df : Option (List Bar))
    (watch : WatchItem) (t : ℚ) (now : String) (eng' : StrategyEngine)
    (c : ThresholdCache)
    (h : calculate_thresholds sf hp eng wid df watch t now = (eng', some c))
    (ticks : List (ℚ × String)) :
    c.signal_fired = false ∧ c.qualified = true ∧
      dictGet eng'.thresholds wid = some c ∧
      ((runTicks sf eng' wid ticks).2).length ≤ 1 := by
  obtain ⟨h1, h2, _, h4⟩ := calculate_thresholds_stores sf hp eng wid df watch t now eng' c h
  exact ⟨h1, h2, h4, runTicks_le_one sf eng' wid ticks⟩

/-- Witness for C1 at the concrete fixture: bars [1, 1, 4], MA(2) rising,
ticks at 3, 4, 5 (the tick at 4 enters the live zone and fires once). -/
theorem signal_one_shot_per_generation_witness :
    cacheW.signal_fired = false ∧ cacheW.qualified = true ∧
      dictGet engW.thresholds "w" = some cacheW ∧
      ((runTicks id engW "w" [(3, "a"), (4, "b"), (5, "c")]).2).length ≤ 1 :=
  signal_one_shot_per_generation id false engW0 "w" (some dfW) watchW 0 "t0"
    engW cacheW (by with_unfolding_all rfl) [(3, "a"), (4, "b"), (5, "c")]

theorem check_price_disq (sf : ℚ → ℚ) (eng : StrategyEngine) (wid : String)
    (p : ℚ) (now : String) (h : disqualified eng wid) :
    (check_price sf eng wid p now).2 = none ∧
      ((check_price sf eng wid p now).1).latest_data = eng.latest_data ∧
      ((check_price sf eng wid p now).1).signals = eng.signals ∧
      disqualified (check_price sf eng wid p now).1 wid := by
  unfold check_price
  cases hc : dictGet eng.thresholds wid with
  | none => exact ⟨rfl, rfl, rfl, h⟩
  | some c0 =>
    have hq0 : c0.qualified = false := h c0 hc
    simp only []
    split
    · exact ⟨rfl, rfl, rfl, h⟩
    · cases hw : dictGet eng.watch_list wid with
      | none => exact ⟨rfl, rfl, rfl, h⟩
      | some w =>
        simp only []
        split
        · exact ⟨rfl, rfl, rfl, h⟩
        · split
          · refine ⟨rfl, rfl, rfl, ?_⟩
            intro c hgc
            simp only [dictGet_dictSet_self, Option.some.injEq] at hgc
            subst hgc
            simpa using qualifyStep_qualified_false w c0 p hq0
          · rename_i hq1
            exfalso
            rw [Bool.not_eq_true] at hq1
            exact absurd (qualifyStep_qualified_false w c0 p hq0) (by simp [hq1])

theorem runTicks_disq (sf : ℚ → ℚ) (eng : StrategyEngine) (wid : String)
    (ticks : List (ℚ × String)) (h : disqualified eng wid) :
    (runTicks sf eng wid ticks).2 = [] ∧
      ((runTicks sf eng wid ticks).1).latest_data = eng.latest_data ∧
      disqualified (runTicks sf eng wid ticks).1 wid := by
  induction ticks generalizing eng with
  | nil => exact ⟨rfl, rfl, h⟩
  | cons t ts ih =>
    have hcp := check_price_disq sf eng wid t.1 t.2 h
    have hr := ih (check_price sf eng wid t.1 t.2).1 hcp.2.2.2
    simp only [runTicks, hcp.1, hr.1, Option.toList_none, List.nil_append]
    exact ⟨trivial, by rw [hr.2.1, hcp.2.1], hr.2.2⟩

theorem check_price_qualSeen (sf : ℚ → ℚ) (eng : StrategyEngine)
    (wid : String) (p : ℚ) (now : String) (h : qualSeen eng wid)
    (hp : p ≠ 0) : qualSeen (check_price sf eng wid p now).1 wid := by
  unfold check_price
  cases hc : dictGet eng.thresholds wid with
  | none => exact h
  | some c0 =>
    obtain ⟨hq0, hlp0⟩ := h c0 hc
    simp only []
    split
    · exact h
    · cases hw : dictGet eng.watch_list wid with
      | none => exact h
      | some w =>
        simp only []
        split
        · exact h
        · split
          · rename_i hq1
            exfalso
            rw [qualifyStep_skip w c0 p hlp0] at hq1
            simp [hq0] at hq1
          · have hset : ∀ c, dictGet (dictSet eng.thresholds wid
                { qualifyStep w c0 p with last_price := p }) wid = some c →
                c.qualified = true ∧ c.last_price ≠ 0 := by
              intro c hgc
              simp only [dictGet_dictSet_self, Option.some.injEq] at hgc
              subst hgc
              rw [qualifyStep_skip w c0 p hlp0]
              exact ⟨hq0, hp⟩
            split
            · exact hset
            · split
              · exact hset
              · split
                · exact hset
                · split
                  · intro c hgc
                    simp only [dictGet_dictSet_self, Option.some.injEq] at hgc
                    subst hgc
                    rw [qualifyStep_skip w c0 p hlp0]
                    exact ⟨hq0, hp⟩
                  · exact hset

theorem runTicks_qualSeen (sf : ℚ → ℚ) (eng : StrategyEngine) (wid : String)
    (ticks : List (ℚ × String)) (h : qualSeen eng wid)
    (hts : ∀ q ∈ ticks, q.1 ≠ 0) : qualSeen (runTicks sf eng wid ticks).1 wid := by
  induction ticks generalizing eng with
  | nil => exact h
  | cons t ts ih =>
    have h1 := check_price_qualSeen sf eng wid t.1 t.2 h (hts t (by simp))
    have := ih (check_price sf eng wid t.1 t.2).1 h1
      (fun q hq => hts q (by simp [hq]))
    simpa [runTicks] using this

theorem check_price_first_tick (sf : ℚ → ℚ) (eng : StrategyEngine)
    (wid : String) (watch : WatchItem) (cache : ThresholdCache) (p : ℚ)
    (now : String)
    (hth : dictGet eng.thresholds wid = some cache)
    (hwl : dictGet eng.watch_list wid = some watch)
    (hen : watch.enabled = true)
    (hst : strTruthy cache.signal_type = true)
    (hfresh : cache.last_price = 0) (hq : cache.qualified = true) :
    ∃ c1, dictGet ((check_price sf eng wid p now).1).thresholds wid = some c1 ∧
      c1.qualified = !((watch.direction == "LONG" && decide (p < cache.ma_value)) ||
                      (watch.direction == "SHORT" && decide (cache.ma_value < p))) ∧
      c1.last_price = p ∧
      (c1.qualified = false →
        (check_price sf eng wid p now).2 = none ∧
        ((check_price sf eng wid p now).1).latest_data = eng.latest_data) := by
  have hdec := qualifyStep_fresh watch cache p hfresh hq
  unfold check_price
  simp only [hth, hwl, hst, hen, not_true, if_false, Bool.not_eq_true,
    Bool.true_eq_false, ite_false, not_false_eq_true, ite_true]
  cases hq1 : (qualifyStep watch cache p).qualified with
  | false =>
    simp only [hq1, reduceIte]
    exact ⟨_, dictGet_dictSet_self _ _ _, by rw [← hq1]; exact hdec, rfl,
      fun _ => ⟨by trivial, by trivial⟩⟩
  | true =>
    simp only [hq1, Bool.true_eq_false, reduceIte]
    split
    · refine ⟨_, dictGet_dictSet_self _ _ _, by rw [← hq1]; exact hdec, rfl, ?_⟩
      intro hf
      exact absurd hf (by simp)
    · split
      · refine ⟨_, dictGet_dictSet_self _ _ _, by rw [← hq1]; exact hdec, rfl, ?_⟩
        intro hf
        exact absurd hf (by simp)
      · split
        · refine ⟨_, dictGet_dictSet_self _ _ _, by rw [← hq1]; exact hdec, rfl, ?_⟩
          intro hf
          exact absurd hf (by simp)
        · split
          · refine ⟨_, dictGet_dictSet_self _ _ _, by rw [← hq1]; exact hdec, rfl, ?_⟩
            intro hf
            exact absurd hf (by simp)
          · refine ⟨_, dictGet_dictSet_self _ _ _, by rw [← hq1]; exact hdec, rfl, ?_⟩
            intro hf
            exact absurd hf (by simp)

/-- C3 (amended): on the first tick after a recalculation (the cache is
fresh: `last_price = 0`, `qualified = true`), `check_price` evaluates the
qualification gate exactly once — LONG qualifies iff the first live price
is at or above the baseline MA value, SHORT iff at or below. Failing it
permanently disqualifies the watch until the next recalculation: every
subsequent tick returns no `Signal`, keeps `qualified = false`, and — in
contrast to the claim's wording — does NOT update the `latest_data`
display snapshot, which retains the values stored by
`calculate_thresholds`. Passing it is equally permanent: `qualified` stays
true for all later (nonzero-price) ticks, and the gate is never
re-evaluated because `last_price` is now nonzero. -/
theorem qualification_once_and_permanent (sf : ℚ → ℚ)
    (eng : StrategyEngine) (wid : String) (watch : WatchItem)
    (cache : ThresholdCache) (p : ℚ) (now : String)
    (hth : dictGet eng.thresholds wid = some cache)
    (hwl : dictGet eng.watch_list wid = some watch)
    (hen : watch.enabled = true)
    (hst : strTruthy cache.signal_type = true)
    (hfresh : cache.last_price = 0) (hq : cache.qualified = true)
    (hp : p ≠ 0) :
    ∃ c1, dictGet ((check_price sf eng wid p now).1).thresholds wid = some c1 ∧
      c1.qualified = !((watch.direction == "LONG" && decide (p < cache.ma_value)) ||
                      (watch.direction == "SHORT" && decide (cache.ma_value < p))) ∧
      c1.last_price = p ∧
      (c1.qualified = false →
        (check_price sf eng wid p now).2 = none ∧
        ∀ ticks,
          (runTicks sf (check_price sf eng wid p now).1 wid ticks).2 = [] ∧
          ((runTicks sf (check_price sf eng wid p now).1 wid ticks).1).latest_data
            = eng.latest_data ∧
          ∀ c2, dictGet ((runTicks sf (check_price sf eng wid p now).1 wid
              ticks).1).thresholds wid = some c2 → c2.qualified = false) ∧
      (c1.qualified = true →
        ∀ ticks, (∀ q ∈ ticks, q.1 ≠ 0) →
          ∀ c2, dictGet ((runTicks sf (check_price sf eng wid p now).1 wid
              ticks).1).thresholds wid = some c2 → c2.qualified = true) := by
  obtain ⟨c1, hg, hdec, hlp, himp⟩ :=
    check_price_first_tick sf eng wid watch cache p now hth hwl hen hst hfresh hq
  refine ⟨c1, hg, hdec, hlp, ?_, ?_⟩
  · intro hfalse
    obtain ⟨hnone, hld⟩ := himp hfalse
    have hdisq : disqualified (check_price sf eng wid p now).1 wid := by
      intro c hc2
      rw [hg] at hc2
      rw [← Option.some.inj hc2]
      exact hfalse
    refine ⟨hnone, fun ticks => ?_⟩
    obtain ⟨hr1, hr2, hr3⟩ := runTicks_disq sf _ wid ticks hdisq
    exact ⟨hr1, hr2.trans hld, hr3⟩
  · intro htrue ticks hts c2 h
    have hqs : qualSeen (check_price sf eng wid p now).1 wid := by
      intro c hc2
      rw [hg] at hc2
      rw [← Option.some.inj hc2]
      refine ⟨htrue, ?_⟩
      rw [hlp]
      exact hp
    exact (runTicks_qualSeen sf _ wid ticks hqs hts c2 h).1

/-- Witness for C3 (amended) at the fixture: first tick 3 ≥ MA 5/2, so the
LONG watch qualifies, and qualification is permanent over later ticks. -/
theorem qualification_once_and_permanent_witness :
    ∃ c1, dictGet ((check_price id engW "w" 3 "a").1).thresholds "w" = some c1 ∧
      c1.qualified = !((watchW.direction == "LONG" && decide ((3 : ℚ) < cacheW.ma_value)) ||
                      (watchW.direction == "SHORT" && decide (cacheW.ma_value < (3 : ℚ)))) ∧
      c1.last_price = 3 ∧
      (c1.qualified = false →
        (check_price id engW "w" 3 "a").2 = none ∧
        ∀ ticks,
          (runTicks id (check_price id engW "w" 3 "a").1 "w" ticks).2 = [] ∧
          ((runTicks id (check_price id engW "w" 3 "a").1 "w" ticks).1).latest_data
            = engW.latest_data ∧
          ∀ c2, dictGet ((runTicks id (check_price id engW "w" 3 "a").1 "w"
              ticks).1).thresholds "w" = some c2 → c2.qualified = false) ∧
      (c1.qualified = true →
        ∀ ticks, (∀ q ∈ ticks, q.1 ≠ 0) →
          ∀ c2, dictGet ((runTicks id (check_price id engW "w" 3 "a").1 "w"
              ticks).1).thresholds "w" = some c2 → c2.qualified = true) :=
  qualification_once_and_permanent id engW "w" watchW cacheW 3 "a"
    (by with_unfolding_all rfl) (by with_unfolding_all rfl) rfl
    (by with_unfolding_all rfl) (by with_unfolding_all rfl) rfl
    (by norm_num)

/-- C3 counterexample to the display-update conjunct: on the fixture
(baseline MA 5/2, LONG), a first tick at 2 disqualifies the watch; the
subsequent tick at 4 leaves the `latest_data` snapshot exactly as
`calculate_thresholds` stored it — `current_price` is still 0, not 4 —
whereas the claim asserts the live display data still updates on every
subsequent tick. -/
theorem qualification_display_counterexample :
    (runTicks id engW "w" [(2, "a"), (4, "b")]).2 = [] ∧
    dictGet ((runTicks id engW "w" [(2, "a"), (4, "b")]).1).latest_data "w"
      = dictGet engW.latest_data "w" ∧
    (dictGet ((runTicks id engW "w" [(2, "a"), (4, "b")]).1).latest_data "w").map
      (fun d => d.current_price) = some 0 ∧
    (0 : ℚ) ≠ 4 :=
  of_decide_eq_true (by with_unfolding_all rfl)

/-- C2: the exit monitor is NOT first-match-wins within a tick. At the
failing input (time exit "00:00" due at 12:00, MA exit `above, +, 0 pts`
with live price 10 > MA 5), the time rule fires and drives the trade to
"closed", but the per-rule guard only checks `status != "exiting"`, which a
closed trade passes — so the MA rule fires again in the same tick,
re-transitioning the already-closed trade and issuing a second batch of
closing orders. A trade that is already "closed" at the start of the tick
is skipped (third conjunct), so the violation is strictly within one
tick. -/
theorem exit_monitor_double_fire :
    (processTradeTick envC2 tradeC2).2 = ["time", "ma"] ∧
    (processTradeTick envC2 tradeC2).1.status = "closed" ∧
    (processTradeTick envC2 { tradeC2 with status := "closed" }).2 = [] :=
  of_decide_eq_true (by with_unfolding_all rfl)

/-- C4: OTM option strike selection. For calls the result contains only
strikes strictly greater than the reference price, in ascending (nearest
first) order; for puts only strikes strictly less, in descending (nearest
first) order; both are capped at `num_strikes`; and if no strike lies on
the required side the result is empty — never a substitution from the
other side. -/
theorem otm_selection_correct (strikes : List ℚ) (ref : ℚ) (n : ℕ) :
    (∀ s ∈ otmStrikes strikes "C" ref n, ref < s) ∧
    List.Sorted (· ≤ ·) (otmStrikes strikes "C" ref n) ∧
    (otmStrikes strikes "C" ref n).length ≤ n ∧
    ((∀ s ∈ strikes, ¬ ref < s) → otmStrikes strikes "C" ref n = []) ∧
    (∀ s ∈ otmStrikes strikes "P" ref n, s < ref) ∧
    List.Sorted (· ≥ ·) (otmStrikes strikes "P" ref n) ∧
    (otmStrikes strikes "P" ref n).length ≤ n ∧
    ((∀ s ∈ strikes, ¬ s < ref) → otmStrikes strikes "P" ref n = []) := by
  have hsorted : List.Sorted (· ≤ ·) (strikes.insertionSort (· ≤ ·)) :=
    List.sorted_insertionSort (· ≤ ·) strikes
  have hmemsort : ∀ s, s ∈ strikes.insertionSort (· ≤ ·) ↔ s ∈ strikes :=
    fun s => List.mem_insertionSort (· ≤ ·)
  have hCif : ∀ A B : List ℚ, (if (("C" == "C") = true) then A else B) = A :=
    fun A B => if_pos rfl
  have hPif : ∀ A B : List ℚ, (if (("P" == "C") = true) then A else B) = B :=
    fun A B => if_neg (by decide)
  refine ⟨?_, ?_, ?_, ?_, ?_, ?_, ?_, ?_⟩
  · intro s hs
    simp only [otmStrikes, hCif] at hs
    have hs' := List.mem_of_mem_take hs
    have := (List.mem_filter.mp hs').2
    simpa using this
  · simp only [otmStrikes, hCif]
    exact (hsorted.filter _).take
  · simp only [otmStrikes, hCif]
    exact List.length_take_le _ _
  · intro hnone
    simp only [otmStrikes, hCif]
    have : (strikes.insertionSort (· ≤ ·)).filter (fun s => decide (ref < s)) = [] := by
      rw [List.filter_eq_nil_iff]
      intro s hs
      simpa using hnone s ((hmemsort s).mp hs)
    rw [this]
    simp
  · intro s hs
    simp only [otmStrikes, hPif] at hs
    have hs' := List.mem_of_mem_take hs
    rw [List.mem_reverse] at hs'
    have := (List.mem_filter.mp hs').2
    simpa using this
  · simp only [otmStrikes, hPif]
    refine List.Pairwise.take ?_
    rw [List.pairwise_reverse]
    exact (hsorted.filter _)
  · simp only [otmStrikes, hPif]
    exact List.length_take_le _ _
  · intro hnone
    simp only [otmStrikes, hPif]
    have : (strikes.insertionSort (· ≤ ·)).filter (fun s => decide (s < ref)) = [] := by
      rw [List.filter_eq_nil_iff]
      intro s hs
      simpa using hnone s ((hmemsort s).mp hs)
    rw [this]
    simp

/-- Witness for C4 at a concrete strike set. -/
theorem otm_selection_correct_witness :
    (∀ s ∈ otmStrikes [95, 100, 105, 110, 90] "C" 101 2, (101 : ℚ) < s) ∧
    List.Sorted (· ≤ ·) (otmStrikes [95, 100, 105, 110, 90] "C" 101 2) ∧
    (otmStrikes [95, 100, 105, 110, 90] "C" 101 2).length ≤ 2 ∧
    ((∀ s ∈ [(95 : ℚ), 100, 105, 110, 90], ¬ (101 : ℚ) < s) →
      otmStrikes [95, 100, 105, 110, 90] "C" 101 2 = []) ∧
    (∀ s ∈ otmStrikes [95, 100, 105, 110, 90] "P" 101 2, s < (101 : ℚ)) ∧
    List.Sorted (· ≥ ·) (otmStrikes [95, 100, 105, 110, 90] "P" 101 2) ∧
    (otmStrikes [95, 100, 105, 110, 90] "P" 101 2).length ≤ 2 ∧
    ((∀ s ∈ [(95 : ℚ), 100, 105, 110, 90], ¬ s < (101 : ℚ)) →
      otmStrikes [95, 100, 105, 110, 90] "P" 101 2 = []) :=
  otm_selection_correct [95, 100, 105, 110, 90] 101 2

theorem negIdx_range_map {β : Type} (f : ℕ → Option β) (L j : ℕ)
    (hj1 : 1 ≤ j) (hjL : j ≤ L) :
    negIdx ((List.range L).map f) j = f (L - j) := by
  unfold negIdx
  rw [List.getD_eq_getElem?_getD, List.length_map, List.length_range,
    List.getElem?_map]
  rw [List.getElem?_range (by omega)]
  rfl

theorem negIdx_calculate_ma (closes : List ℚ) (p j : ℕ) (hj1 : 1 ≤ j)
    (hjL : j ≤ closes.length) (hp : p - 1 ≤ closes.length - j) :
    negIdx (calculate_ma closes p) j = some (smaAt closes p (closes.length - j)) := by
  unfold calculate_ma
  rw [negIdx_range_map _ _ _ hj1 hjL]
  rw [if_pos hp]

theorem negIdx_calculate_std_eq (hpd : Bool) (sf : ℚ → ℚ) (closes : List ℚ)
    (p j : ℕ) (hj1 : 1 ≤ j) (hjL : j ≤ closes.length) (hp2 : 2 ≤ p)
    (hp : p - 1 ≤ closes.length - j) :
    negIdx (calculate_std hpd sf closes p) j =
      some (sf ((if hpd then sampleVarAt else popVarAt) closes p (closes.length - j))) := by
  unfold calculate_std
  rw [negIdx_range_map _ _ _ hj1 hjL]
  rw [if_pos hp]
  cases hpd with
  | false => rfl
  | true =>
    rw [if_pos (by trivial), if_pos hp2]
    simp

theorem calculate_ma_length (closes : List ℚ) (p : ℕ) :
    (calculate_ma closes p).length = closes.length := by
  unfold calculate_ma
  rw [List.length_map, List.length_range]

theorem threshCacheOf_MA (sf : ℚ → ℚ) (hpd : Bool) (watch : WatchItem)
    (bars : List Bar) (t : ℚ)
    (hen : watch.enabled = true) (hma : watch.strategy_type = "MA")
    (hp1 : 1 ≤ watch.ma_period) (hlen : watch.ma_period + 1 ≤ bars.length) :
    ∃ c, threshCacheOf sf hpd watch bars t = some c ∧
      (let closes := bars.map (·.close)
       let cur := smaAt closes watch.ma_period (bars.length - 1)
       let prev := smaAt closes watch.ma_period (bars.length - 2)
       c.ma_value = pyRound 4 cur ∧ c.prev_ma = pyRound 4 prev ∧
       (prev < cur →
         c.trigger_low = .fin (pyRound 4 cur) ∧
         c.trigger_high = .fin (pyRound 4 (cur + watch.n_points)) ∧
         c.signal_type = some "BUY") ∧
       (cur < prev →
         c.trigger_low = .fin (pyRound 4 (cur - watch.n_points)) ∧
         c.trigger_high = .fin (pyRound 4 cur) ∧
         c.signal_type = some "SELL") ∧
       (cur = prev →
         c.signal_type = none ∧ c.buy_zone = none ∧ c.sell_zone = none)) := by
  have hclen : (bars.map (·.close)).length = bars.length := List.length_map _ _
  have h1 : negIdx (calculate_ma (bars.map (·.close)) watch.ma_period) 1 =
      some (smaAt (bars.map (·.close)) watch.ma_period
        ((bars.map (·.close)).length - 1)) :=
    negIdx_calculate_ma _ _ _ (by omega) (by omega) (by omega)
  have h2 : negIdx (calculate_ma (bars.map (·.close)) watch.ma_period) 2 =
      some (smaAt (bars.map (·.close)) watch.ma_period
        ((bars.map (·.close)).length - 2)) :=
    negIdx_calculate_ma _ _ _ (by omega) (by omega) (by omega)
  rw [hclen] at h1 h2
  unfold threshCacheOf
  rw [if_neg (by simp [hen]), if_neg (by omega)]
  dsimp only
  rw [if_neg (by rw [calculate_ma_length]; omega)]
  rw [h1, h2]
  dsimp only
  simp only [hma]
  refine ⟨_, rfl, rfl, rfl, ?_, ?_, ?_⟩
  · intro h
    have hr : decide (smaAt (bars.map (·.close)) watch.ma_period
        (bars.length - 2) < smaAt (bars.map (·.close))
        watch.ma_period (bars.length - 1)) = true := by
      simpa using h
    simp only [triggerZone, hr]
    refine ⟨?_, ?_, ?_⟩ <;> simp [PyFloat.round4]
  · intro h
    have hr : decide (smaAt (bars.map (·.close)) watch.ma_period
        (bars.length - 2) < smaAt (bars.map (·.close))
        watch.ma_period (bars.length - 1)) = false := by
      simp [not_lt.mpr (le_of_lt h)]
    have hf : decide (smaAt (bars.map (·.close)) watch.ma_period
        (bars.length - 1) < smaAt (bars.map (·.close))
        watch.ma_period (bars.length - 2)) = true := by
      simpa using h
    simp only [triggerZone, hr, hf]
    refine ⟨?_, ?_, ?_⟩ <;> simp [PyFloat.round4]
  · intro h
    have hr : decide (smaAt (bars.map (·.close)) watch.ma_period
        (bars.length - 2) < smaAt (bars.map (·.close))
        watch.ma_period (bars.length - 1)) = false := by
      simp [h]
    have hf : decide (smaAt (bars.map (·.close)) watch.ma_period
        (bars.length - 1) < smaAt (bars.map (·.close))
        watch.ma_period (bars.length - 2)) = false := by
      simp [h]
    simp only [triggerZone, hr, hf]
    exact ⟨rfl, rfl, rfl⟩

theorem threshCacheOf_insufficient (sf : ℚ → ℚ) (hpd : Bool)
    (watch : WatchItem) (bars : List Bar) (t : ℚ)
    (h : bars.length < watch.ma_period + 1) :
    threshCacheOf sf hpd watch bars t = none := by
  unfold threshCacheOf
  split_ifs with h1 h2
  all_goals first | rfl | exact absurd h h2

/-- C5: under the MA strategy, with at least `ma_period + 1` bars, the
computed cache carries: rising MA ⇒ zone `[MA, MA + n_points]` and implied
signal BUY; falling ⇒ `[MA - n_points, MA]` and SELL; flat ⇒ no signal and
no zone (stored values carry the source's uniform 4-decimal rounding, and
`MA` is the rolling mean of the last `ma_period` closes). With fewer bars
the calculation fails, returning no baseline and leaving the engine
untouched. -/
theorem ma_strategy_thresholds :
    (∀ (sf : ℚ → ℚ) (hpd : Bool) (eng : StrategyEngine) (wid : String)
       (bars : List Bar) (watch : WatchItem) (t : ℚ) (now : String),
      watch.enabled = true → watch.strategy_type = "MA" →
      1 ≤ watch.ma_period → watch.ma_period + 1 ≤ bars.length →
      ∃ c, (calculate_thresholds sf hpd eng wid (some bars) watch t now).2 = some c ∧
        (let closes := bars.map (·.close)
         let cur := smaAt closes watch.ma_period (bars.length - 1)
         let prev := smaAt closes watch.ma_period (bars.length - 2)
         c.ma_value = pyRound 4 cur ∧ c.prev_ma = pyRound 4 prev ∧
         (prev < cur →
           c.trigger_low = .fin (pyRound 4 cur) ∧
           c.trigger_high = .fin (pyRound 4 (cur + watch.n_points)) ∧
           c.signal_type = some "BUY") ∧
         (cur < prev →
           c.trigger_low = .fin (pyRound 4 (cur - watch.n_points)) ∧
           c.trigger_high = .fin (pyRound 4 cur) ∧
           c.signal_type = some "SELL") ∧
         (cur = prev →
           c.signal_type = none ∧ c.buy_zone = none ∧ c.sell_zone = none))) ∧
    (∀ (sf : ℚ → ℚ) (hpd : Bool) (eng : StrategyEngine) (wid : String)
       (bars : List Bar) (watch : WatchItem) (t : ℚ) (now : String),
      bars.length < watch.ma_period + 1 →
      calculate_thresholds sf hpd eng wid (some bars) watch t now = (eng, none)) := by
  constructor
  · intro sf hpd eng wid bars watch t now hen hma hp1 hlen
    obtain ⟨c, hco, hfields⟩ := threshCacheOf_MA sf hpd watch bars t hen hma hp1 hlen
    refine ⟨c, ?_, hfields⟩
    unfold calculate_thresholds
    simp only [hco]
  · intro sf hpd eng wid bars watch t now hshort
    unfold calculate_thresholds
    simp only [threshCacheOf_insufficient sf hpd watch bars t hshort]

/-- Witness for C5: on the fixture (closes 1, 1, 4; period 2) the MA rose
from 1 to 5/2, and a single bar is insufficient data. -/
theorem ma_strategy_thresholds_witness :
    (∃ c, (calculate_thresholds id false {} "w" (some dfW) watchW 0 "t0").2 = some c ∧
      (let closes := dfW.map (·.close)
       let cur := smaAt closes watchW.ma_period (dfW.length - 1)
       let prev := smaAt closes watchW.ma_period (dfW.length - 2)
       c.ma_value = pyRound 4 cur ∧ c.prev_ma = pyRound 4 prev ∧
       (prev < cur →
         c.trigger_low = .fin (pyRound 4 cur) ∧
         c.trigger_high = .fin (pyRound 4 (cur + watchW.n_points)) ∧
         c.signal_type = some "BUY") ∧
       (cur < prev →
         c.trigger_low = .fin (pyRound 4 (cur - watchW.n_points)) ∧
         c.trigger_high = .fin (pyRound 4 cur) ∧
         c.signal_type = some "SELL") ∧
       (cur = prev →
         c.signal_type = none ∧ c.buy_zone = none ∧ c.sell_zone = none))) ∧
    calculate_thresholds id false {} "w" (some [{ close := 1 }]) watchW 0 "t0"
      = ({}, none) :=
  ⟨ma_strategy_thresholds.1 id false {} "w" dfW watchW 0 "t0" rfl rfl
      (by decide) (by decide),
    ma_strategy_thresholds.2 id false {} "w" [{ close := 1 }] watchW 0 "t0"
      (by decide)⟩

set_option maxRecDepth 8000 in
/-- C6: after a successful hourly baseline recomputation for a watch, the
option contracts are re-selected (phases 1 and 2 re-run) if and only if
the new baseline value differs from the previously cached option reference
by more than `0.5 × n_points`. In the Scenario-E instances with
`n_points = 5` (threshold 2.5) and cached reference 100: a new baseline of
100.4 causes no re-selection (the cached reference stays 100), while 103.2
triggers re-selection (the reference becomes 103.2). -/
theorem option_reselect_hysteresis :
    (∀ (sf : ℚ → ℚ) (hpd : Bool) (eng : StrategyEngine) (wid : String)
       (watch : WatchItem) (bars : List Bar) (oldRef : ℚ) (t : ℚ)
       (now : String) (eng' : StrategyEngine) (c : ThresholdCache),
      watch.enabled = true → watch.ma_period + 1 ≤ bars.length →
      calculate_thresholds sf hpd eng wid (some bars) watch t now = (eng', some c) →
      ((hourlyRecalcStep sf hpd eng wid watch (some bars) (some oldRef) t now).2.2
          = true ↔
        watch.n_points * (1/2) < |c.ma_value - oldRef|)) ∧
    (hourlyRecalcStep id false {} "w" watchW (some dfA6) (some 100) 0 "t").2
      = (some 100, false) ∧
    (hourlyRecalcStep id false {} "w" watchW (some dfB6) (some 100) 0 "t").2
      = (some (516/5), true) := by
  refine ⟨?_, ?_, ?_⟩
  · intro sf hpd eng wid watch bars oldRef t now eng' c hen hlen hcalc
    unfold hourlyRecalcStep
    rw [if_neg (by simp [hen])]
    dsimp only
    rw [if_neg (by omega)]
    simp only [hcalc]
    split_ifs with hcond
    · simpa [Option.getD] using hcond
    · simpa [Option.getD] using hcond
  · exact of_decide_eq_true (by with_unfolding_all rfl)
  · exact of_decide_eq_true (by with_unfolding_all rfl)

/-- Witness for C6's general part at the fixture (new baseline 5/2, cached
reference 0, threshold 5/2: 5/2 < |5/2 - 0| is false, so no re-selection). -/
theorem option_reselect_hysteresis_witness :
    (hourlyRecalcStep id false engW0 "w" watchW (some dfW) (some 0) 0 "t0").2.2
        = true ↔
      watchW.n_points * (1/2) < |cacheW.ma_value - 0| :=
  option_reselect_hysteresis.1 id false engW0 "w" watchW dfW 0 0 "t0"
    engW cacheW rfl (by decide) (by with_unfolding_all rfl)

theorem ratFloor_eq_floor (q : ℚ) : Rat.floor q = ⌊q⌋ := by
  rw [Rat.floor_def', Rat.floor_def]

/-- C7: for every order item with positive ask price, positive amount and
positive multiplier, the ordered quantity is
`max(1, floor(amount / (ask × multiplier)))`. -/
theorem order_qty_formula (amount ask multiplier : ℚ)
    (ha : 0 < ask) (hm : 0 < multiplier) (hamt : 0 < amount) :
    order_qty amount ask multiplier = max 1 ⌊amount / (ask * multiplier)⌋ := by
  unfold order_qty pyInt
  have hx : 0 ≤ amount / (ask * multiplier) := by positivity
  rw [if_pos hx, ratFloor_eq_floor]

/-- Witness for C7: 1000 budget, ask 2, multiplier 100 ⇒ quantity 5. -/
theorem order_qty_formula_witness :
    order_qty 1000 2 100 = max 1 ⌊(1000 : ℚ) / (2 * 100)⌋ :=
  order_qty_formula 1000 2 100 (by norm_num) (by norm_num) (by norm_num)

theorem threshCacheOf_BB (sf : ℚ → ℚ) (hpd : Bool) (watch : WatchItem)
    (bars : List Bar) (t : ℚ)
    (hen : watch.enabled = true) (hbb : watch.strategy_type = "BB")
    (hp2 : 2 ≤ watch.ma_period) (hlen : watch.ma_period + 1 ≤ bars.length) :
    ∃ c, threshCacheOf sf hpd watch bars t = some c ∧
      (let closes := bars.map (·.close)
       let cur := smaAt closes watch.ma_period (bars.length - 1)
       let sigma := sf ((if hpd then sampleVarAt else popVarAt) closes
         watch.ma_period (bars.length - 1))
       c.bb_middle = (if cur = 0 then none else some (pyRound 4 cur)) ∧
       c.bb_upper = (if cur + watch.bb_std_dev * sigma = 0 then none
         else some (pyRound 4 (cur + watch.bb_std_dev * sigma))) ∧
       c.bb_lower = (if cur - watch.bb_std_dev * sigma = 0 then none
         else some (pyRound 4 (cur - watch.bb_std_dev * sigma)))) := by
  have hclen : (bars.map (·.close)).length = bars.length := List.length_map _ _
  have h1 : negIdx (calculate_ma (bars.map (·.close)) watch.ma_period) 1 =
      some (smaAt (bars.map (·.close)) watch.ma_period
        ((bars.map (·.close)).length - 1)) :=
    negIdx_calculate_ma _ _ _ (by omega) (by omega) (by omega)
  have h2 : negIdx (calculate_ma (bars.map (·.close)) watch.ma_period) 2 =
      some (smaAt (bars.map (·.close)) watch.ma_period
        ((bars.map (·.close)).length - 2)) :=
    negIdx_calculate_ma _ _ _ (by omega) (by omega) (by omega)
  have hstd : negIdx (calculate_std hpd sf (bars.map (·.close))
      watch.ma_period) 1 =
      some (sf ((if hpd then sampleVarAt else popVarAt) (bars.map (·.close))
        watch.ma_period ((bars.map (·.close)).length - 1))) :=
    negIdx_calculate_std_eq hpd sf _ _ _ (by omega) (by omega) hp2 (by omega)
  rw [hclen] at h1 h2 hstd
  unfold threshCacheOf
  rw [if_neg (by simp [hen]), if_neg (by omega)]
  dsimp only
  rw [if_neg (by rw [calculate_ma_length]; omega)]
  rw [h1, h2]
  dsimp only
  simp only [hbb]
  rw [if_pos (by rfl)]
  rw [hstd]
  refine ⟨_, rfl, rfl, ?_, ?_⟩
  · simp [qTruthy, ite_not]
  · simp [qTruthy, ite_not]

/-- C8 counterexample: with pandas available (the production path —
src/ib_manager.py imports pandas unconditionally and `get_daily_bars`
returns a DataFrame), `calculate_std` is `rolling(period).std()`, the
SAMPLE standard deviation (ddof = 1). On closes 5, 1, 3 with period 2 and
one band width, the final window [1, 3] has sample variance 2 but
population variance 1, so (instantiating the abstracted square root with a
function that, like the real one, distinguishes 2 from 1) the stored upper
band is 2 + 2 = 4, while the claim's population-std band is 2 + 1 = 3. -/
theorem bb_std_population_counterexample :
    ((calculate_thresholds id true {} "w8" (some dfC8) watchBB 0 "t").2.bind
      (fun c => c.bb_upper)) = some 4 ∧
    (specPopStdBands id (dfC8.map (·.close)) 2 1).1 = 3 ∧
    (4 : ℚ) ≠ 3 :=
  of_decide_eq_true (by with_unfolding_all rfl)

/-- C8 (amended): under the BB strategy with enough data, the bands stored
by `calculate_thresholds` are `MA ± bb_std_dev · σ` (4-decimal precision,
a zero-valued band stored as None by Python truthiness), where σ is the
square root of the SAMPLE variance (divided by `period − 1`, pandas
`rolling().std()` with its ddof = 1 default) when pandas is available —
the production path — and of the population variance (divided by
`period`) only in the plain-Python fallback. -/
theorem bb_bands_std_divisor (sf : ℚ → ℚ) (hpd : Bool)
    (eng : StrategyEngine) (wid : String) (bars : List Bar)
    (watch : WatchItem) (t : ℚ) (now : String)
    (hen : watch.enabled = true) (hbb : watch.strategy_type = "BB")
    (hp2 : 2 ≤ watch.ma_period) (hlen : watch.ma_period + 1 ≤ bars.length) :
    ∃ c, (calculate_thresholds sf hpd eng wid (some bars) watch t now).2 = some c ∧
      (let closes := bars.map (·.close)
       let cur := smaAt closes watch.ma_period (bars.length - 1)
       let sigma := sf ((if hpd then sampleVarAt else popVarAt) closes
         watch.ma_period (bars.length - 1))
       c.bb_middle = (if cur = 0 then none else some (pyRound 4 cur)) ∧
       c.bb_upper = (if cur + watch.bb_std_dev * sigma = 0 then none
         else some (pyRound 4 (cur + watch.bb_std_dev * sigma))) ∧
       c.bb_lower = (if cur - watch.bb_std_dev * sigma = 0 then none
         else some (pyRound 4 (cur - watch.bb_std_dev * sigma)))) := by
  obtain ⟨c, hco, hfields⟩ := threshCacheOf_BB sf hpd watch bars t hen hbb hp2 hlen
  refine ⟨c, ?_, hfields⟩
  unfold calculate_thresholds
  simp only [hco]

/-- Witness for C8 (amended) on the fixture, pandas path: σ = sf(sample
variance 2). -/
theorem bb_bands_std_divisor_witness :
    ∃ c, (calculate_thresholds id true {} "w8" (some dfC8) watchBB 0 "t").2 = some c ∧
      (let closes := dfC8.map (·.close)
       let cur := smaAt closes watchBB.ma_period (dfC8.length - 1)
       let sigma := id ((if true then sampleVarAt else popVarAt) closes
         watchBB.ma_period (dfC8.length - 1))
       c.bb_middle = (if cur = 0 then none else some (pyRound 4 cur)) ∧
       c.bb_upper = (if cur + watchBB.bb_std_dev * sigma = 0 then none
         else some (pyRound 4 (cur + watchBB.bb_std_dev * sigma))) ∧
       c.bb_lower = (if cur - watchBB.bb_std_dev * sigma = 0 then none
         else some (pyRound 4 (cur - watchBB.bb_std_dev * sigma)))) :=
  bb_bands_std_divisor id true {} "w8" dfC8 watchBB 0 "t" rfl rfl
    (by decide) (by decide)

/-- C9: for an existing watch, `update_watch` removes the cached threshold
baseline iff the update dict contains at least one of the keys
`ma_period`, `n_points`, `direction`, `enabled` (key presence alone —
`invalidatesThresholds` — regardless of the new values); otherwise the
thresholds map is untouched. The stored WatchItem becomes
`applyUpdates item u`, whose fields not mentioned in the update keep their
old values, and the other engine maps are untouched. -/
theorem update_watch_invalidation (eng : StrategyEngine) (wid : String)
    (u : WatchUpdates) (item : WatchItem)
    (h : dictGet eng.watch_list wid = some item) :
    (invalidatesThresholds u = true →
      dictGet (update_watch eng wid u).thresholds wid = none) ∧
    (invalidatesThresholds u = false →
      (update_watch eng wid u).thresholds = eng.thresholds) ∧
    dictGet (update_watch eng wid u).watch_list wid = some (applyUpdates item u) ∧
    (update_watch eng wid u).latest_data = eng.latest_data ∧
    (update_watch eng wid u).signals = eng.signals ∧
    (update_watch eng wid u).candles = eng.candles ∧
    (u.symbol = none → (applyUpdates item u).symbol = item.symbol) ∧
    (u.sec_type = none → (applyUpdates item u).sec_type = item.sec_type) ∧
    (u.exchange = none → (applyUpdates item u).exchange = item.exchange) ∧
    (u.currency = none → (applyUpdates item u).currency = item.currency) ∧
    (u.ma_period = none → (applyUpdates item u).ma_period = item.ma_period) ∧
    (u.n_points = none → (applyUpdates item u).n_points = item.n_points) ∧
    (u.enabled = none → (applyUpdates item u).enabled = item.enabled) ∧
    (u.contract_month = none →
      (applyUpdates item u).contract_month = item.contract_month) ∧
    (u.direction = none → (applyUpdates item u).direction = item.direction) ∧
    (u.confirm_ma_enabled = none →
      (applyUpdates item u).confirm_ma_enabled = item.confirm_ma_enabled) ∧
    (u.confirm_ma_period = none →
      (applyUpdates item u).confirm_ma_period = item.confirm_ma_period) ∧
    (u.strategy_type = none →
      (applyUpdates item u).strategy_type = item.strategy_type) ∧
    (u.bb_std_dev = none → (applyUpdates item u).bb_std_dev = item.bb_std_dev) ∧
    (u.timeframe = none → (applyUpdates item u).timeframe = item.timeframe) := by
  unfold update_watch
  simp only [h]
  cases hinv : invalidatesThresholds u with
  | true =>
    simp only [hinv, if_true, reduceIte]
    refine ⟨fun _ => dictGet_dictPop_self _ _, fun hc => absurd hc (by simp),
      dictGet_dictSet_self _ _ _, by trivial, by trivial, by trivial, ?_⟩
    refine ⟨?_, ?_, ?_, ?_, ?_, ?_, ?_, ?_, ?_, ?_, ?_, ?_, ?_, ?_⟩ <;>
      (intro hn; simp [applyUpdates, hn])
  | false =>
    simp only [hinv, Bool.false_eq_true, if_false, reduceIte]
    refine ⟨fun hc => absurd hc (by simp), fun _ => by trivial,
      dictGet_dictSet_self _ _ _, by trivial, by trivial, by trivial, ?_⟩
    refine ⟨?_, ?_, ?_, ?_, ?_, ?_, ?_, ?_, ?_, ?_, ?_, ?_, ?_, ?_⟩ <;>
      (intro hn; simp [applyUpdates, hn])

/-- Witness for C9: updating only `n_points` (an invalidating key) on the
fixture engine. -/
theorem update_watch_invalidation_witness :
    (invalidatesThresholds { n_points := some 7 } = true →
      dictGet (update_watch engW0 "w" { n_points := some 7 }).thresholds "w" = none) ∧
    (invalidatesThresholds { n_points := some 7 } = false →
      (update_watch engW0 "w" { n_points := some 7 }).thresholds = engW0.thresholds) ∧
    dictGet (update_watch engW0 "w" { n_points := some 7 }).watch_list "w"
      = some (applyUpdates watchW { n_points := some 7 }) ∧
    (update_watch engW0 "w" { n_points := some 7 }).latest_data = engW0.latest_data ∧
    (update_watch engW0 "w" { n_points := some 7 }).signals = engW0.signals ∧
    (update_watch engW0 "w" { n_points := some 7 }).candles = engW0.candles ∧
    (WatchUpdates.symbol { n_points := some 7 } = none →
      (applyUpdates watchW { n_points := some 7 }).symbol = watchW.symbol) ∧
    (WatchUpdates.sec_type { n_points := some 7 } = none →
      (applyUpdates watchW { n_points := some 7 }).sec_type = watchW.sec_type) ∧
    (WatchUpdates.exchange { n_points := some 7 } = none →
      (applyUpdates watchW { n_points := some 7 }).exchange = watchW.exchange) ∧
    (WatchUpdates.currency { n_points := some 7 } = none →
      (applyUpdates watchW { n_points := some 7 }).currency = watchW.currency) ∧
    (WatchUpdates.ma_period { n_points := some 7 } = none →
      (applyUpdates watchW { n_points := some 7 }).ma_period = watchW.ma_period) ∧
    (WatchUpdates.n_points { n_points := some 7 } = none →
      (applyUpdates watchW { n_points := some 7 }).n_points = watchW.n_points) ∧
    (WatchUpdates.enabled { n_points := some 7 } = none →
      (applyUpdates watchW { n_points := some 7 }).enabled = watchW.enabled) ∧
    (WatchUpdates.contract_month { n_points := some 7 } = none →
      (applyUpdates watchW { n_points := some 7 }).contract_month = watchW.contract_month) ∧
    (WatchUpdates.direction { n_points := some 7 } = none →
      (applyUpdates watchW { n_points := some 7 }).direction = watchW.direction) ∧
    (WatchUpdates.confirm_ma_enabled { n_points := some 7 } = none →
      (applyUpdates watchW { n_points := some 7 }).confirm_ma_enabled = watchW.confirm_ma_enabled) ∧
    (WatchUpdates.confirm_ma_period { n_points := some 7 } = none →
      (applyUpdates watchW { n_points := some 7 }).confirm_ma_period = watchW.confirm_ma_period) ∧
    (WatchUpdates.strategy_type { n_points := some 7 } = none →
      (applyUpdates watchW { n_points := some 7 }).strategy_type = watchW.strategy_type) ∧
    (WatchUpdates.bb_std_dev { n_points := some 7 } = none →
      (applyUpdates watchW { n_points := some 7 }).bb_std_dev = watchW.bb_std_dev) ∧
    (WatchUpdates.timeframe { n_points := some 7 } = none →
      (applyUpdates watchW { n_points := some 7 }).timeframe = watchW.timeframe) :=
  update_watch_invalidation engW0 "w" { n_points := some 7 } watchW rfl

/-- C10: `remove_watch` removes the watch entry together with its
threshold cache, latest display data and stored candles; it is idempotent,
and calling it with an id that was never added leaves the engine state
unchanged (and, being total, never raises). -/
theorem remove_watch_correct (eng : StrategyEngine) (wid : String) :
    dictGet (remove_watch eng wid).watch_list wid = none ∧
    dictGet (remove_watch eng wid).thresholds wid = none ∧
    dictGet (remove_watch eng wid).latest_data wid = none ∧
    dictGet (remove_watch eng wid).candles wid = none ∧
    (remove_watch eng wid).signals = eng.signals ∧
    remove_watch (remove_watch eng wid) wid = remove_watch eng wid ∧
    (dictGet eng.watch_list wid = none → dictGet eng.thresholds wid = none →
      dictGet eng.latest_data wid = none → dictGet eng.candles wid = none →
      remove_watch eng wid = eng) := by
  refine ⟨dictGet_dictPop_self _ _, dictGet_dictPop_self _ _,
    dictGet_dictPop_self _ _, dictGet_dictPop_self _ _, rfl, ?_, ?_⟩
  · unfold remove_watch
    simp only [dictPop_idem]
  · intro h1 h2 h3 h4
    unfold remove_watch
    rw [dictPop_of_get_none _ _ h1, dictPop_of_get_none _ _ h2,
      dictPop_of_get_none _ _ h3, dictPop_of_get_none _ _ h4]

/-- Witness for C10 on the fixture engine with an id that was never
added. -/
theorem remove_watch_correct_witness :
    dictGet (remove_watch engW0 "zz").watch_list "zz" = none ∧
    dictGet (remove_watch engW0 "zz").thresholds "zz" = none ∧
    dictGet (remove_watch engW0 "zz").latest_data "zz" = none ∧
    dictGet (remove_watch engW0 "zz").candles "zz" = none ∧
    (remove_watch engW0 "zz").signals = engW0.signals ∧
    remove_watch (remove_watch engW0 "zz") "zz" = remove_watch engW0 "zz" ∧
    (dictGet engW0.watch_list "zz" = none → dictGet engW0.thresholds "zz" = none →
      dictGet engW0.latest_data "zz" = none → dictGet engW0.candles "zz" = none →
      remove_watch engW0 "zz" = engW0) :=
  remove_watch_correct engW0 "zz"

end TradingMonitor
